import Mathlib

/-!
# ign-staticnet: a shallow embedding of `ign_staticnet.go`

The development follows the Go source top-down: the domain structs, the
Ignition file descriptor built by `fileFromBytes`, the `addTemplate` helper and
the two HTTP handlers `nicWrapper` and `bondWrapper`.

Go strings are Lean `String`s, Go byte slices are lists of `Byte`, and the one
slice the handlers mutate (`Storage.Files`) is a Go slice header (pointer,
length, capacity) over an explicit heap of backing arrays.

Each handler is given twice: as one function that runs it from its first
statement to its last (`nicWrapper`, `bondWrapper`), and as a sequence of steps
on the shared heap (`step`, `run`), one step per statement that touches the
heap, so that the handlers of concurrent requests can interleave.
-/

namespace IgnStaticnet

/-! ## Bytes and strings -/

/-- One octet. -/
abbrev Byte := Fin 256

/-- The bytes of a Go string (its UTF-8 encoding). -/
def bytesOf (s : String) : List Byte :=
  (s.data.flatMap String.utf8EncodeChar).map (fun u => (⟨u.toNat, u.val.isLt⟩ : Byte))

/-! ## encoding/base64, standard alphabet with padding -/

/-- The alphabet `encodeStd` of Go's `encoding/base64`. -/
def encodeStd : List Char :=
  "ABCDEFGHIJKLMNOPQRSTUVWXYZabcdefghijklmnopqrstuvwxyz0123456789+/".data

/-- The character `enc.encode[n]`. -/
def encodeChar (n : Nat) : Char := encodeStd.getD n 'A'

/-- The table `enc.decodeMap`: the index of an alphabet character, `none` for
every other character (the table's `0xFF` entries). -/
def decodeMap (c : Char) : Option Nat :=
  if encodeStd.indexOf c < 64 then some (encodeStd.indexOf c) else none

/-- The byte `n mod 256`. -/
def toByte (n : Nat) : Byte := ⟨n % 256, Nat.mod_lt n (by decide)⟩

/-- Go's `base64.StdEncoding.EncodeToString`: three input bytes give four output
characters; a final group of one or two bytes is padded with `=`. -/
def EncodeToString : List Byte → List Char
  | [] => []
  | [a] =>
    let val := a.val * 65536
    [encodeChar (val / 262144 % 64), encodeChar (val / 4096 % 64), '=', '=']
  | [a, b] =>
    let val := a.val * 65536 + b.val * 256
    [encodeChar (val / 262144 % 64), encodeChar (val / 4096 % 64),
      encodeChar (val / 64 % 64), '=']
  | a :: b :: c :: rest =>
    let val := a.val * 65536 + b.val * 256 + c.val
    encodeChar (val / 262144 % 64) :: encodeChar (val / 4096 % 64) ::
      encodeChar (val / 64 % 64) :: encodeChar (val % 64) :: EncodeToString rest

/-- One four-character quantum of the base64 decoder. Padding is accepted only in
the last quantum (`last`). -/
def decodeQuantum (c0 c1 c2 c3 : Char) (last : Bool) : Option (List Byte) :=
  match decodeMap c0, decodeMap c1 with
  | some v0, some v1 =>
    if c2 = '=' then
      if last ∧ c3 = '=' then
        some [toByte ((v0 * 262144 + v1 * 4096) / 65536)]
      else none
    else
      match decodeMap c2 with
      | none => none
      | some v2 =>
        if c3 = '=' then
          if last then
            let val := v0 * 262144 + v1 * 4096 + v2 * 64
            some [toByte (val / 65536), toByte (val / 256)]
          else none
        else
          match decodeMap c3 with
          | none => none
          | some v3 =>
            let val := v0 * 262144 + v1 * 4096 + v2 * 64 + v3
            some [toByte (val / 65536), toByte (val / 256), toByte val]
  | _, _ => none

/-- Go's `base64.StdEncoding.DecodeString` on input without line breaks. -/
def DecodeBase64 : List Char → Option (List Byte)
  | [] => some []
  | c0 :: c1 :: c2 :: c3 :: rest =>
    match decodeQuantum c0 c1 c2 c3 rest.isEmpty, DecodeBase64 rest with
    | some q, some r => some (q ++ r)
    | _, _ => none
  | _ => none

/-! ## The data-URL encoding of `github.com/vincent-petithory/dataurl` -/

/-- Go's `strings.Replace(mt, "; ", ";", -1)`: every non-overlapping occurrence
of a semicolon followed by a space, scanning left to right, loses the space. -/
def replaceSemiSpace : List Char → List Char
  | [] => []
  | [c] => [c]
  | c :: d :: rest =>
    if c = ';' ∧ d = ' ' then ';' :: replaceSemiSpace rest
    else c :: replaceSemiSpace (d :: rest)

/-- Modelled from the spec: `dataurl.EncodeBytes`, which is a dependency and not
part of the sources. The spec asks for "an inline, self-describing, reversible
byte encoding (e.g., base64 with a media-type tag)"; the library writes
`data:`, the sniffed media type with the space after each `;` removed,
`;base64,` and the padded standard base64 of the bytes. The content sniffer
`http.DetectContentType` is the parameter `detect`. -/
def EncodeBytes (detect : List Byte → String) (data : List Byte) : String :=
  let mt := detect data
  let cleanedMt := replaceSemiSpace mt.data
  String.mk ("data:".data ++ cleanedMt ++ ";base64".data ++ [','] ++ EncodeToString data)

/-- The value of one hexadecimal digit. -/
def unhex (c : Char) : Option Nat :=
  if '0' ≤ c ∧ c ≤ '9' then some (c.toNat - '0'.toNat)
  else if 'a' ≤ c ∧ c ≤ 'f' then some (c.toNat - 'a'.toNat + 10)
  else if 'A' ≤ c ∧ c ≤ 'F' then some (c.toNat - 'A'.toNat + 10)
  else none

/-- Percent-decoding of the payload of a data URL that is not base64. -/
def unescape : List Char → Option (List Byte)
  | [] => some []
  | '%' :: h :: l :: rest =>
    match unhex h, unhex l, unescape rest with
    | some x, some y, some r => some (toByte (x * 16 + y) :: r)
    | _, _, _ => none
  | c :: rest =>
    if c = '%' then none
    else match unescape rest with
      | some r => some ((String.utf8EncodeChar c).map (fun u => toByte u.toNat) ++ r)
      | none => none

/-- Removes the leading `p` from `s`, if `s` starts with it. -/
def dropLeading : List Char → List Char → Option (List Char)
  | [], s => some s
  | _ :: _, [] => none
  | p :: ps, c :: cs => if p = c then dropLeading ps cs else none

/-- Modelled from the spec: the decoder of a data URL (`dataurl.DecodeString`,
RFC 2397), the inverse the spec's contract `decode(embed(bytes)) == bytes`
speaks of. The text after `data:` up to the first comma is the header; a header
ending in `;base64` announces a base64 payload, any other header a
percent-encoded one. -/
def DecodeString (s : String) : Option (List Byte) :=
  match dropLeading "data:".data s.data with
  | none => none
  | some rest =>
    let header := rest.takeWhile (fun c => c != ',')
    match rest.dropWhile (fun c => c != ',') with
    | [] => none
    | _ :: payload =>
      if ";base64".data.isSuffixOf header then DecodeBase64 payload
      else unescape payload

/-! ## Ignition file descriptors (`igntypes`, config v2_2) -/

/-- `igntypes.NodeUser`. -/
structure NodeUser where
  ID : Option Int := none
  Name : String := ""
  deriving DecidableEq, Repr

/-- `igntypes.NodeGroup`. -/
structure NodeGroup where
  ID : Option Int := none
  Name : String := ""
  deriving DecidableEq, Repr

/-- `igntypes.Node`. -/
structure Node where
  Filesystem : String := ""
  Group : Option NodeGroup := none
  Overwrite : Option Bool := none
  Path : String := ""
  User : Option NodeUser := none
  deriving DecidableEq, Repr

/-- `igntypes.Verification`. -/
structure Verification where
  Hash : Option String := none
  deriving DecidableEq, Repr

/-- `igntypes.FileContents`. -/
structure FileContents where
  Compression : String := ""
  Source : String := ""
  Verification : Verification := {}
  deriving DecidableEq, Repr

/-- `igntypes.File`, with the embedded `Node` and `FileEmbedded1` flattened. -/
structure File where
  Node : Node := {}
  Append : Bool := false
  Contents : FileContents := {}
  Mode : Option Int := none
  deriving DecidableEq, Repr

instance : Inhabited File := ⟨{}⟩

/-- The Go function `fileFromBytes`. -/
def fileFromBytes (detect : List Byte → String)
    (path : String) (username : String) (mode : Int) (contents : List Byte) : File :=
  { Node := { Filesystem := "root", Path := path, User := some { Name := username } }
    Mode := some mode
    Contents := { Source := EncodeBytes detect contents } }

/-! ## Go slices of files -/

/-- A Go slice header: the backing array (an index into the heap), the length and
the capacity. The nil slice has length and capacity zero. -/
structure Slice where
  ptr : Nat := 0
  len : Nat := 0
  cap : Nat := 0
  deriving DecidableEq, Repr

/-- The backing arrays of all file slices; a slice's `ptr` indexes this list. -/
abbrev Heap := List (List File)

/-- The elements a slice shows: the first `len` cells of its backing array. -/
def Slice.view (heap : Heap) (s : Slice) : List File :=
  (heap.getD s.ptr []).take s.len

/-- Go's built-in `append(s, f)` for one element. With spare capacity the element
is written into the backing array right after the last element and the array is
shared with `s`; otherwise a new array is allocated, the elements are copied and
the rest is zeroed. `growslice n` is the spare capacity the runtime adds when it
grows a slice of capacity `n`. -/
def append (growslice : Nat → Nat) (heap : Heap) (s : Slice) (f : File) : Heap × Slice :=
  if s.len < s.cap then
    (heap.set s.ptr ((heap.getD s.ptr []).set s.len f), { s with len := s.len + 1 })
  else
    (heap ++ [s.view heap ++ [f] ++ List.replicate (growslice s.cap) default],
      { ptr := heap.length, len := s.len + 1, cap := s.len + 1 + growslice s.cap })

/-! ## Ignition configurations -/

/-- The sections of an Ignition configuration the program never reads or writes
(`Ignition`, `Networkd`, `Passwd`, `Systemd`, and in `Storage` everything but
`Files`), kept as one uninterpreted value. -/
abbrev Directives := String

/-- `igntypes.Storage`. -/
structure Storage where
  Files : Slice := {}
  Others : Directives := ""
  deriving DecidableEq, Repr

/-- `igntypes.Config`. Assigning a `Config` copies the slice header of
`Storage.Files`, not the backing array. -/
structure Config where
  Storage : Storage := {}
  Others : Directives := ""
  deriving DecidableEq, Repr

/-- What a reader of a configuration sees at a given moment: the file sequence
behind the slice header together with the untouched sections. -/
structure Document where
  Files : List File
  StorageOthers : Directives
  Others : Directives
  deriving DecidableEq, Repr

/-- Reads a configuration through the heap. -/
def Config.read (heap : Heap) (c : Config) : Document :=
  { Files := c.Storage.Files.view heap, StorageOthers := c.Storage.Others, Others := c.Others }

/-- Indexing `ignConfigs[key]`: a missing key gives the zero `Config`. -/
def index (ignConfigs : List (String × Config)) (key : String) : Config :=
  (ignConfigs.lookup key).getD {}

/-! ## Domain structs -/

/-- The Go struct `Nic`. -/
structure Nic where
  Name : String
  IP : String
  Mask : String
  Gateway : String
  DNS : String
  deriving DecidableEq, Repr

/-- The Go struct `Bond`. -/
structure Bond where
  Name : String
  IP : String
  Mask : String
  Gateway : String
  DNS : String
  deriving DecidableEq, Repr

/-- The Go struct `Slave`. -/
structure Slave where
  Name : String
  Bond : String
  deriving DecidableEq, Repr

/-- The `data interface{}` argument of a template: one of the three structs. -/
inductive Data where
  | nic (v : Nic)
  | bond (v : Bond)
  | slave (v : Slave)
  deriving DecidableEq, Repr

/-- The exported field `name` of the struct, if it has one. -/
def Data.field (d : Data) (name : String) : Option String :=
  match d with
  | .nic v =>
    if name = "Name" then some v.Name else if name = "IP" then some v.IP
    else if name = "Mask" then some v.Mask else if name = "Gateway" then some v.Gateway
    else if name = "DNS" then some v.DNS else none
  | .bond v =>
    if name = "Name" then some v.Name else if name = "IP" then some v.IP
    else if name = "Mask" then some v.Mask else if name = "Gateway" then some v.Gateway
    else if name = "DNS" then some v.DNS else none
  | .slave v =>
    if name = "Name" then some v.Name else if name = "Bond" then some v.Bond else none

/-! ## text/template -/

/-- One node of a parsed template: literal text, or a field action `{{.name}}`
with the location (`file:line:column`) the parser recorded for it. -/
inductive Action where
  | text (s : String)
  | field (name : String) (location : String)
  deriving DecidableEq, Repr

/-- Modelled from the spec: a parsed template, with its name (the base name of
the parsed file) and its nodes. The template files (`templates/*.tmpl`) are not
part of the sources; §4.1 describes rendering as "substituting struct fields into
the template", which fails when the template "references an undefined field
during execution". -/
structure Template where
  Name : String
  Root : List Action
  deriving DecidableEq, Repr

/-- The type of the data as `text/template` prints it in an error. -/
def Data.typeName : Data → String
  | .nic _ => "main.Nic"
  | .bond _ => "main.Bond"
  | .slave _ => "main.Slave"

/-- The walk of `text/template` over the nodes of the template called `name`:
the nodes are written to the buffer in order; an undefined field stops the walk
with the error of `evalField` and leaves in the buffer what was written before. -/
def walk (name : String) : List Action → List Byte → Data → List Byte × Option String
  | [], buf, _ => (buf, none)
  | .text s :: rest, buf, data => walk name rest (buf ++ bytesOf s) data
  | .field f location :: rest, buf, data =>
    match data.field f with
    | some v => walk name rest (buf ++ bytesOf v) data
    | none =>
      (buf, some ("template: " ++ location ++ ": executing \"" ++ name ++ "\" at <." ++ f ++
        ">: can't evaluate field " ++ f ++ " in type " ++ data.typeName))

/-- Go's `tmpl.Execute(&buf, data)`. Returns the buffer and the error. -/
def Execute (tmpl : Template) (buf : List Byte) (data : Data) : List Byte × Option String :=
  walk tmpl.Name tmpl.Root buf data

/-! ## The environment of the program -/

/-- What the program takes from its libraries and its file system.
`ParseFiles` is `template.ParseFiles` over the template directory, `Marshal` is
`json.Marshal` on a configuration, `DetectContentType` is the content sniffer
used by the data-URL encoder, `growslice` the growth policy of `append`. -/
structure Env where
  ParseFiles : String → Except String Template
  Marshal : Document → Except String (List Byte)
  DetectContentType : List Byte → String
  growslice : Nat → Nat

/-- How a handler invocation ends: the process exits (after printing), the
handler panics, or a response is written with a status and a body. -/
inductive Outcome where
  | exited (code : Nat) (printed : String)
  | panicked
  | written (status : Nat) (body : List Byte)
  deriving DecidableEq, Repr

/-- The state a handler invocation leaves behind: the heap, the handler's local
`ignData` (if it got that far) and the outcome. -/
structure Handled where
  heap : Heap
  ignData : Option Config
  out : Outcome
  deriving DecidableEq, Repr

/-- An HTTP request as the handlers read it: the connection's remote address,
the path variables matched by the router, and the headers. -/
structure Request where
  RemoteAddr : String
  Vars : List (String × String)
  Header : List (String × String) := []
  deriving DecidableEq, Repr

/-- Indexing `mux.Vars(r)[key]`: a missing key gives the empty string. -/
def Request.vars (r : Request) (key : String) : String :=
  (r.Vars.lookup key).getD ""

/-- The scanning loop of `strings.Split` for a one-character separator: `cur`
holds, reversed, the characters read since the last separator. -/
def splitLoop (sep : Char) : List Char → List Char → List String
  | [], cur => [String.mk cur.reverse]
  | c :: cs, cur =>
    if c = sep then String.mk cur.reverse :: splitLoop sep cs []
    else splitLoop sep cs (c :: cur)

/-- Go's `strings.Split(s, sep)` for a one-character separator. -/
def Split (s : String) (sep : Char) : List String := splitLoop sep s.data []

/-- The package variable `templatesDir`. -/
def templatesDir : String := "templates"

/-- Go's `path.Join` on two clean, non-empty elements. -/
def pathJoin (dir file : String) : String := dir ++ "/" ++ file

/-- The non-nil branch of `handleError`: the error is printed and the process
exits with status 1. (With a nil error `handleError` returns and the caller goes
on.) -/
def handleError (err : String) : Outcome := .exited 1 err

/-- The Go function `addTemplate`. Either the process exits, or the heap and the
configuration with one more file are returned. -/
def addTemplate (env : Env) (heap : Heap) (ignConfig : Config)
    (templateFile : String) (path : String) (data : Data) : Except Outcome (Heap × Config) :=
  match env.ParseFiles templateFile with
  | .error err => .error (handleError err)
  | .ok tmpl =>
    match Execute tmpl [] data with
    | (_, some err) => .error (handleError err)
    | (buf, none) =>
      let ignFile := fileFromBytes env.DetectContentType path "root" 420 buf
      let grown := append env.growslice heap ignConfig.Storage.Files ignFile
      .ok (grown.1, { ignConfig with Storage := { ignConfig.Storage with Files := grown.2 } })

/-- Lines 87-95 of `nicWrapper`: the `Nic` value built from the request. `none`
stands for an index out of range at `addr[0]`. -/
def nicValue (r : Request) : Option Nic :=
  let vars := r.vars
  let addr := Split r.RemoteAddr ':'
  match addr[0]? with
  | none => none
  | some addr0 =>
    some { Name := vars "nic", IP := addr0, Mask := vars "mask",
           Gateway := vars "gateway", DNS := vars "dns" }

/-- The handler returned by the Go function `nicWrapper`, run on request `r` in
heap `heap` from its first statement to its last with no other handler running
in between. (`step` below runs a handler one statement at a time, for runs in
which the handlers of several requests interleave.) -/
def nicWrapper (env : Env) (ignConfigs : List (String × Config)) (r : Request)
    (heap : Heap) : Handled :=
  let vars := r.vars
  let nicFile := pathJoin templatesDir "nic.tmpl"
  match nicValue r with
  | none => { heap := heap, ignData := none, out := .panicked }
  | some nic =>
    match env.ParseFiles nicFile with
    | .error err => { heap := heap, ignData := none, out := handleError err }
    | .ok nicTemplate =>
      let buf := (Execute nicTemplate [] (.nic nic)).1
      let nicPath := "/etc/sysconfig/network-scripts/ifcfg-" ++ vars "nic"
      let f := fileFromBytes env.DetectContentType nicPath "root" 420 buf
      let ignData := index ignConfigs (vars "type")
      let grown := append env.growslice heap ignData.Storage.Files f
      let ignData : Config := { ignData with Storage := { ignData.Storage with Files := grown.2 } }
      match env.Marshal (ignData.read grown.1) with
      | .error err => { heap := grown.1, ignData := some ignData, out := handleError err }
      | .ok data => { heap := grown.1, ignData := some ignData, out := .written 200 data }

/-- Lines 114-131 of `bondWrapper`: the `Bond` value and the two `Slave` values
built from the request. `none` stands for an index out of range at `addr[0]`. -/
def bondValues (r : Request) : Option (Bond × Slave × Slave) :=
  let vars := r.vars
  let addr := Split r.RemoteAddr ':'
  match addr[0]? with
  | none => none
  | some addr0 =>
    let bond : Bond := { Name := vars "bond", IP := addr0, Mask := vars "mask",
                         Gateway := vars "gateway", DNS := vars "dns" }
    let nic1 : Slave := { Name := vars "nic1", Bond := vars "bond" }
    let nic2 : Slave := { Name := vars "nic1", Bond := vars "bond" }
    some (bond, nic1, nic2)

/-- The handler returned by the Go function `bondWrapper`, run on request `r` in
heap `heap` from its first statement to its last with no other handler running
in between. -/
def bondWrapper (env : Env) (ignConfigs : List (String × Config)) (r : Request)
    (heap : Heap) : Handled :=
  let vars := r.vars
  let slaveFile := pathJoin templatesDir "bondSlave.tmpl"
  let bondFile := pathJoin templatesDir "bond.tmpl"
  match bondValues r with
  | none => { heap := heap, ignData := none, out := .panicked }
  | some (bond, nic1, nic2) =>
    let ignData := index ignConfigs (vars "type")
    let bondPath := "/etc/sysconfig/network-scripts/ifcfg-" ++ vars "bond"
    let nic1Path := "/etc/sysconfig/network-scripts/ifcfg-" ++ vars "nic1"
    let nic2Path := "/etc/sysconfig/network-scripts/ifcfg-" ++ vars "nic2"
    match addTemplate env heap ignData bondFile bondPath (.bond bond) with
    | .error o => { heap := heap, ignData := some ignData, out := o }
    | .ok (heap1, ignData1) =>
      match addTemplate env heap1 ignData1 slaveFile nic1Path (.slave nic1) with
      | .error o => { heap := heap1, ignData := some ignData1, out := o }
      | .ok (heap2, ignData2) =>
        match addTemplate env heap2 ignData2 slaveFile nic2Path (.slave nic2) with
        | .error o => { heap := heap2, ignData := some ignData2, out := o }
        | .ok (heap3, ignData3) =>
          match env.Marshal (ignData3.read heap3) with
          | .error err => { heap := heap3, ignData := some ignData3, out := handleError err }
          | .ok data => { heap := heap3, ignData := some ignData3, out := .written 200 data }

/-! ## Handlers running concurrently

`net/http` runs every request in its own goroutine and the handlers take no
lock, so the statements of several handlers interleave on the one heap. -/

/-- Lines 85-103 of `nicWrapper`: everything up to and including the `append`.
Either the handler is over (panic or exit), or its local `ignData` is returned. -/
def nicAppend (env : Env) (ignConfigs : List (String × Config)) (r : Request)
    (heap : Heap) : Heap × Except Outcome Config :=
  let vars := r.vars
  let nicFile := pathJoin templatesDir "nic.tmpl"
  match nicValue r with
  | none => (heap, .error .panicked)
  | some nic =>
    match env.ParseFiles nicFile with
    | .error err => (heap, .error (handleError err))
    | .ok nicTemplate =>
      let buf := (Execute nicTemplate [] (.nic nic)).1
      let nicPath := "/etc/sysconfig/network-scripts/ifcfg-" ++ vars "nic"
      let f := fileFromBytes env.DetectContentType nicPath "root" 420 buf
      let ignData := index ignConfigs (vars "type")
      let grown := append env.growslice heap ignData.Storage.Files f
      (grown.1, .ok { ignData with Storage := { ignData.Storage with Files := grown.2 } })

/-- Lines 104-106 of `nicWrapper` and 139-141 of `bondWrapper`: `json.Marshal`
reads `ignData` through the heap as it is at that moment, then the response is
written. -/
def respond (env : Env) (heap : Heap) (ignData : Config) : Outcome :=
  match env.Marshal (ignData.read heap) with
  | .error err => handleError err
  | .ok data => .written 200 data

/-- Where a running handler stands: a NIC handler at its first statement, a bond
handler at its first statement, before its second or its third `addTemplate`
(lines 137, 138), either handler before `json.Marshal`, or a handler that is
over. -/
inductive Thread where
  | nic (r : Request)
  | bond (r : Request)
  | bondNic1 (r : Request) (ignData : Config)
  | bondNic2 (r : Request) (ignData : Config)
  | marshal (ignData : Config)
  | finished (out : Outcome)
  deriving DecidableEq, Repr

/-- One step of a handler: it runs up to and including its next statement that
touches the heap (an `append` or `json.Marshal`). -/
def step (env : Env) (ignConfigs : List (String × Config)) (heap : Heap) :
    Thread → Heap × Thread
  | .nic r =>
    match nicAppend env ignConfigs r heap with
    | (heap1, .error o) => (heap1, .finished o)
    | (heap1, .ok ignData) => (heap1, .marshal ignData)
  | .bond r =>
    match bondValues r with
    | none => (heap, .finished .panicked)
    | some (bond, _, _) =>
      match addTemplate env heap (index ignConfigs (r.vars "type"))
          (pathJoin templatesDir "bond.tmpl")
          ("/etc/sysconfig/network-scripts/ifcfg-" ++ r.vars "bond") (.bond bond) with
      | .error o => (heap, .finished o)
      | .ok (heap1, ignData) => (heap1, .bondNic1 r ignData)
  | .bondNic1 r ignData =>
    match bondValues r with
    | none => (heap, .finished .panicked)
    | some (_, nic1, _) =>
      match addTemplate env heap ignData (pathJoin templatesDir "bondSlave.tmpl")
          ("/etc/sysconfig/network-scripts/ifcfg-" ++ r.vars "nic1") (.slave nic1) with
      | .error o => (heap, .finished o)
      | .ok (heap1, ignData1) => (heap1, .bondNic2 r ignData1)
  | .bondNic2 r ignData =>
    match bondValues r with
    | none => (heap, .finished .panicked)
    | some (_, _, nic2) =>
      match addTemplate env heap ignData (pathJoin templatesDir "bondSlave.tmpl")
          ("/etc/sysconfig/network-scripts/ifcfg-" ++ r.vars "nic2") (.slave nic2) with
      | .error o => (heap, .finished o)
      | .ok (heap1, ignData1) => (heap1, .marshal ignData1)
  | .marshal ignData => (heap, .finished (respond env heap ignData))
  | .finished o => (heap, .finished o)

/-- The serving process: the heap and the handlers in flight. -/
structure World where
  heap : Heap
  threads : List Thread
  deriving DecidableEq, Repr

/-- Some handler has called `os.Exit`: the process is gone. -/
def World.exited (w : World) : Bool :=
  w.threads.any (fun t =>
    match t with
    | .finished (.exited _ _) => true
    | _ => false)

/-- The scheduler lets handler number `i` take one step, unless the process has
exited. -/
def World.advance (env : Env) (ignConfigs : List (String × Config)) (w : World) (i : Nat) :
    World :=
  if w.exited then w
  else
    match w.threads[i]? with
    | none => w
    | some t =>
      { heap := (step env ignConfigs w.heap t).1
        threads := w.threads.set i (step env ignConfigs w.heap t).2 }

/-- A run of the process under a schedule: the list of the handlers that step,
in order. -/
def run (env : Env) (ignConfigs : List (String × Config)) (schedule : List Nat)
    (w : World) : World :=
  schedule.foldl (World.advance env ignConfigs) w

/-- The local `ignData` of a handler that has got past its first append. -/
def Thread.ignData : Thread → Option Config
  | .bondNic1 _ c => some c
  | .bondNic2 _ c => some c
  | .marshal c => some c
  | _ => none

/-! ## Well-formedness of slices and of the role map -/

/-- A slice header is well formed in a heap: its length is within its capacity
and its capacity within its backing array. -/
def Slice.WF (heap : Heap) (s : Slice) : Prop :=
  s.len ≤ s.cap ∧ s.cap ≤ (heap.getD s.ptr []).length

instance (heap : Heap) (s : Slice) : Decidable (s.WF heap) := by
  unfold Slice.WF
  infer_instance

/-- An append to `s` cannot write into a cell that `t` shows: the arrays differ,
or `t` ends at or before the end of `s`, or `s` is full (and will be reallocated). -/
def Slice.Clear (t s : Slice) : Prop :=
  t.ptr ≠ s.ptr ∨ t.len ≤ s.len ∨ s.cap ≤ s.len

/-- The role map as `readFromFiles` leaves it: every stored file slice is well
formed, and the slices of different entries do not share a backing array (each
comes from its own `ignition.Parse`). -/
def StoreOK (heap : Heap) (ignConfigs : List (String × Config)) : Prop :=
  (∀ e ∈ ignConfigs, e.2.Storage.Files.WF heap) ∧
  ignConfigs.Pairwise (fun a b =>
    a.2.Storage.Files.cap = 0 ∨ b.2.Storage.Files.cap = 0 ∨
      a.2.Storage.Files.ptr ≠ b.2.Storage.Files.ptr)

instance (heap : Heap) (ignConfigs : List (String × Config)) :
    Decidable (StoreOK heap ignConfigs) := by
  unfold StoreOK
  infer_instance

/-- The caller IP of a request: the longest prefix of `RemoteAddr` without a
colon. -/
def callerIP (r : Request) : String :=
  String.mk (r.RemoteAddr.data.takeWhile (fun c => c != ':'))

/-- The file `nicWrapper` appends, given the parsed NIC template. -/
def nicFileOf (env : Env) (r : Request) (tmpl : Template) : File :=
  fileFromBytes env.DetectContentType ("/etc/sysconfig/network-scripts/ifcfg-" ++ r.vars "nic")
    "root" 420
    (Execute tmpl [] (.nic { Name := r.vars "nic", IP := callerIP r, Mask := r.vars "mask",
                             Gateway := r.vars "gateway", DNS := r.vars "dns" })).1

/-- The three files `bondWrapper` appends, given the parsed bond and slave
templates. -/
def bondFilesOf (env : Env) (r : Request) (tb ts : Template) : List File :=
  [ fileFromBytes env.DetectContentType
      ("/etc/sysconfig/network-scripts/ifcfg-" ++ r.vars "bond") "root" 420
      (Execute tb [] (.bond { Name := r.vars "bond", IP := callerIP r, Mask := r.vars "mask",
                              Gateway := r.vars "gateway", DNS := r.vars "dns" })).1,
    fileFromBytes env.DetectContentType
      ("/etc/sysconfig/network-scripts/ifcfg-" ++ r.vars "nic1") "root" 420
      (Execute ts [] (.slave { Name := r.vars "nic1", Bond := r.vars "bond" })).1,
    fileFromBytes env.DetectContentType
      ("/etc/sysconfig/network-scripts/ifcfg-" ++ r.vars "nic2") "root" 420
      (Execute ts [] (.slave { Name := r.vars "nic1", Bond := r.vars "bond" })).1 ]


/-! ## A concrete deployment, for evaluating the handlers -/

/-- The NIC template `nic.tmpl`. -/
def nicTemplate : Template :=
  { Name := "nic.tmpl"
    Root := [.text "DEVICE=", .field "Name" "nic.tmpl:1:9", .text "\nIPADDR=",
             .field "IP" "nic.tmpl:2:9", .text "\nPREFIX=", .field "Mask" "nic.tmpl:3:9",
             .text "\nGATEWAY=", .field "Gateway" "nic.tmpl:4:10", .text "\nDNS1=",
             .field "DNS" "nic.tmpl:5:7"] }

/-- The bond template `bond.tmpl`. -/
def bondTemplate : Template :=
  { Name := "bond.tmpl"
    Root := [.text "DEVICE=", .field "Name" "bond.tmpl:1:9", .text "\nIPADDR=",
             .field "IP" "bond.tmpl:2:9", .text "\nPREFIX=", .field "Mask" "bond.tmpl:3:9",
             .text "\nGATEWAY=", .field "Gateway" "bond.tmpl:4:10", .text "\nDNS1=",
             .field "DNS" "bond.tmpl:5:7"] }

/-- The slave template `bondSlave.tmpl`. -/
def slaveTemplate : Template :=
  { Name := "bondSlave.tmpl"
    Root := [.text "DEVICE=", .field "Name" "bondSlave.tmpl:1:9", .text "\nMASTER=",
             .field "Bond" "bondSlave.tmpl:2:9"] }

/-- A NIC template that refers to `MAC`, a field `Nic` does not have. -/
def brokenNicTemplate : Template :=
  { Name := "nic.tmpl"
    Root := [.text "DEVICE=", .field "Name" "nic.tmpl:1:9", .text "\nHWADDR=",
             .field "MAC" "nic.tmpl:2:9", .text "\nONBOOT=yes"] }

/-- A bond template that refers to `MAC`, a field `Bond` does not have. -/
def brokenBondTemplate : Template :=
  { Name := "bond.tmpl"
    Root := [.text "DEVICE=", .field "Name" "bond.tmpl:1:9", .text "\nHWADDR=",
             .field "MAC" "bond.tmpl:2:9", .text "\nONBOOT=yes"] }

/-- A template directory holding the three templates. -/
def exampleTemplates (file : String) : Except String Template :=
  if file = "templates/nic.tmpl" then .ok nicTemplate
  else if file = "templates/bond.tmpl" then .ok bondTemplate
  else if file = "templates/bondSlave.tmpl" then .ok slaveTemplate
  else .error ("open " ++ file ++ ": no such file or directory")

/-- A template directory whose NIC and bond templates refer to a field the
structs do not have. -/
def brokenTemplates (file : String) : Except String Template :=
  if file = "templates/nic.tmpl" then .ok brokenNicTemplate
  else if file = "templates/bond.tmpl" then .ok brokenBondTemplate
  else if file = "templates/bondSlave.tmpl" then .ok slaveTemplate
  else .error ("open " ++ file ++ ": no such file or directory")

/-- A serializer that lists the paths of the files, one per line. -/
def exampleMarshal (d : Document) : Except String (List Byte) :=
  .ok (d.Files.flatMap (fun f => bytesOf f.Node.Path ++ [10]))

/-- An environment with the three templates in place. -/
def exampleEnv : Env :=
  ⟨exampleTemplates, exampleMarshal, fun _ => "text/plain; charset=utf-8", fun n => n⟩

/-- An environment whose NIC and bond templates fail during execution. -/
def brokenEnv : Env :=
  ⟨brokenTemplates, exampleMarshal, fun _ => "text/plain; charset=utf-8", fun n => n⟩

/-- An environment with an empty template directory. -/
def missingEnv : Env :=
  ⟨fun file => .error ("open " ++ file ++ ": no such file or directory"), exampleMarshal,
    fun _ => "text/plain; charset=utf-8", fun n => n⟩

/-- A file already present in the master configuration. -/
def baseFile : File :=
  { Node := { Filesystem := "root", Path := "/etc/hostname" }
    Contents := { Source := "data:,master-0" } }

/-- A heap with one backing array of capacity four holding one file, as a JSON
decoder leaves it after reading a one-element array. -/
def exampleHeap : Heap := [[baseFile, default, default, default]]

/-- A role map whose master configuration has one file and spare capacity. -/
def exampleStore : List (String × Config) :=
  [("bootstrap", {}), ("master", { Storage := { Files := ⟨0, 1, 4⟩ } }), ("worker", {})]

/-- The request `GET /master/nic/eth0/24/10.0.0.1/8.8.8.8` from `10.0.0.5`. -/
def nicRequest : Request :=
  { RemoteAddr := "10.0.0.5:51234"
    Vars := [("type", "master"), ("nic", "eth0"), ("mask", "24"), ("gateway", "10.0.0.1"),
             ("dns", "8.8.8.8")] }

/-- The request `GET /master/nic/eth1/16/10.1.0.1/1.1.1.1` from the same
connection address, carrying a forwarded-for header. -/
def nicRequest2 : Request :=
  { RemoteAddr := "10.0.0.5:51234"
    Vars := [("type", "master"), ("nic", "eth1"), ("mask", "16"), ("gateway", "10.1.0.1"),
             ("dns", "1.1.1.1")]
    Header := [("X-Forwarded-For", "192.168.1.1")] }

/-- The request `GET /master/nic/ens3/24/10.0.0.1/8.8.8.8` from another
connection. -/
def ens3Request : Request :=
  { RemoteAddr := "10.0.0.9:40000"
    Vars := [("type", "master"), ("nic", "ens3"), ("mask", "24"), ("gateway", "10.0.0.1"),
             ("dns", "8.8.8.8")] }

/-- The request `GET /master/bond/bond0/24/10.0.0.1/8.8.8.8/eth0/eth1`. -/
def bondRequest : Request :=
  { RemoteAddr := "10.0.0.5:51234"
    Vars := [("type", "master"), ("bond", "bond0"), ("mask", "24"), ("gateway", "10.0.0.1"),
             ("dns", "8.8.8.8"), ("nic1", "eth0"), ("nic2", "eth1")] }

/-! # Theorems -/

/-! ## Base64 and the data URL -/

theorem decodeMap_encodeChar (n : Nat) (h : n < 64) : decodeMap (encodeChar n) = some n := by
  interval_cases n <;> rfl

theorem encodeChar_ne_pad (n : Nat) (h : n < 64) : encodeChar n ≠ '=' := by
  interval_cases n <;> decide

theorem decodeQuantum_three (a b c : Byte) (last : Bool) :
    decodeQuantum
      (encodeChar ((a.val * 65536 + b.val * 256 + c.val) / 262144 % 64))
      (encodeChar ((a.val * 65536 + b.val * 256 + c.val) / 4096 % 64))
      (encodeChar ((a.val * 65536 + b.val * 256 + c.val) / 64 % 64))
      (encodeChar ((a.val * 65536 + b.val * 256 + c.val) % 64)) last = some [a, b, c] := by
  have ha := a.isLt
  have hb := b.isLt
  have hc := c.isLt
  unfold decodeQuantum
  rw [decodeMap_encodeChar _ (Nat.mod_lt _ (by decide)),
    decodeMap_encodeChar _ (Nat.mod_lt _ (by decide)),
    decodeMap_encodeChar _ (Nat.mod_lt _ (by decide)),
    decodeMap_encodeChar _ (Nat.mod_lt _ (by decide))]
  simp only [encodeChar_ne_pad _ (Nat.mod_lt _ (by decide : 0 < 64)), if_false]
  simp only [toByte, Option.some.injEq, List.cons.injEq, and_true]
  refine ⟨?_, ?_, ?_⟩ <;> apply Fin.ext <;> simp only <;> omega

theorem decodeQuantum_two (a b : Byte) :
    decodeQuantum
      (encodeChar ((a.val * 65536 + b.val * 256) / 262144 % 64))
      (encodeChar ((a.val * 65536 + b.val * 256) / 4096 % 64))
      (encodeChar ((a.val * 65536 + b.val * 256) / 64 % 64)) '=' true = some [a, b] := by
  have ha := a.isLt
  have hb := b.isLt
  unfold decodeQuantum
  rw [decodeMap_encodeChar _ (Nat.mod_lt _ (by decide)),
    decodeMap_encodeChar _ (Nat.mod_lt _ (by decide)),
    decodeMap_encodeChar _ (Nat.mod_lt _ (by decide))]
  simp only [encodeChar_ne_pad _ (Nat.mod_lt _ (by decide : 0 < 64)), if_false, if_true]
  simp only [toByte, Option.some.injEq, List.cons.injEq, and_true]
  refine ⟨?_, ?_⟩ <;> apply Fin.ext <;> simp only <;> omega

theorem decodeQuantum_one (a : Byte) :
    decodeQuantum
      (encodeChar ((a.val * 65536) / 262144 % 64))
      (encodeChar ((a.val * 65536) / 4096 % 64)) '=' '=' true = some [a] := by
  have ha := a.isLt
  unfold decodeQuantum
  rw [decodeMap_encodeChar _ (Nat.mod_lt _ (by decide)),
    decodeMap_encodeChar _ (Nat.mod_lt _ (by decide))]
  simp only [and_self, if_true]
  simp only [toByte, Option.some.injEq, List.cons.injEq, and_true]
  apply Fin.ext
  simp only
  omega

/-- Base64 decoding undoes base64 encoding. -/
theorem DecodeBase64_EncodeToString (data : List Byte) :
    DecodeBase64 (EncodeToString data) = some data := by
  induction data using EncodeToString.induct with
  | case1 => rfl
  | case2 a =>
    simp only [EncodeToString, DecodeBase64, List.isEmpty_nil, decodeQuantum_one]
    rfl
  | case3 a b =>
    simp only [EncodeToString, DecodeBase64, List.isEmpty_nil, decodeQuantum_two]
    rfl
  | case4 a b c rest ih =>
    simp only [EncodeToString, DecodeBase64, decodeQuantum_three, ih]
    rfl

theorem replaceSemiSpace_subset (c : Char) (l : List Char) (h : c ∉ l) :
    c ∉ replaceSemiSpace l := by
  induction l using replaceSemiSpace.induct with
  | case1 => simp [replaceSemiSpace]
  | case2 d => simpa [replaceSemiSpace] using h
  | case3 x y rest hxy ih =>
    obtain ⟨rfl, rfl⟩ := hxy
    simp only [replaceSemiSpace, and_self, if_true, List.mem_cons, not_or] at h ⊢
    exact ⟨h.1, ih h.2.2⟩
  | case4 x y rest hxy ih =>
    simp only [replaceSemiSpace, hxy, if_false, List.mem_cons, not_or] at h ⊢
    exact ⟨h.1, by simpa using ih (by simpa using h.2)⟩

theorem dropLeading_append (p s : List Char) : dropLeading p (p ++ s) = some s := by
  induction p with
  | nil => cases s <;> rfl
  | cons a p ih => simp [dropLeading, ih]

theorem takeWhile_comma (h rest : List Char) (hc : ',' ∉ h) :
    (h ++ ',' :: rest).takeWhile (fun c => c != ',') = h ∧
    (h ++ ',' :: rest).dropWhile (fun c => c != ',') = ',' :: rest := by
  induction h with
  | nil => simp
  | cons a h ih =>
    simp only [List.mem_cons, not_or] at hc
    have ha : (a != ',') = true := by simpa using Ne.symm hc.1
    simp [List.takeWhile, List.dropWhile, ha, ih hc.2]

theorem DecodeString_EncodeBytes (detect : List Byte → String) (data : List Byte)
    (h : ',' ∉ (detect data).data) :
    DecodeString (EncodeBytes detect data) = some data := by
  have h1 := replaceSemiSpace_subset ',' _ h
  have h2 : ',' ∉ replaceSemiSpace (detect data).data ++ ";base64".data := by
    simp only [List.mem_append, not_or]
    exact ⟨h1, by decide⟩
  obtain ⟨ht, hd⟩ := takeWhile_comma _ (EncodeToString data) h2
  simp only [DecodeString, EncodeBytes]
  have e : "data:".data ++ replaceSemiSpace (detect data).data ++ ";base64".data ++ [','] ++
      EncodeToString data = "data:".data ++
        ((replaceSemiSpace (detect data).data ++ ";base64".data) ++ ',' :: EncodeToString data) := by
    simp
  rw [e, dropLeading_append]
  simp only [ht, hd]
  rw [if_pos]
  · exact DecodeBase64_EncodeToString data
  · rw [List.isSuffixOf_iff_suffix]
    exact List.suffix_append _ _

/-! ## Slices -/

theorem getD_set_self (heap : Heap) (i : Nat) (a : List File) (h : i < heap.length) :
    (heap.set i a).getD i [] = a := by
  simp [List.getD_eq_getElem?_getD, List.getElem?_set, h]

theorem getD_set_other (heap : Heap) (i j : Nat) (a : List File) (h : i ≠ j) :
    (heap.set i a).getD j [] = heap.getD j [] := by
  simp [List.getD_eq_getElem?_getD, List.getElem?_set, h]

theorem getD_append_old (heap : Heap) (a : List File) (j : Nat) (h : j < heap.length) :
    (heap ++ [a]).getD j [] = heap.getD j [] := by
  simp [List.getD_eq_getElem?_getD, List.getElem?_append_left h]

theorem getD_append_new (heap : Heap) (a : List File) :
    (heap ++ [a]).getD heap.length [] = a := by
  simp [List.getD_eq_getElem?_getD]

theorem getD_beyond (heap : Heap) (i : Nat) (h : ¬ i < heap.length) :
    heap.getD i [] = [] := by
  simp [List.getD_eq_getElem?_getD, List.getElem?_eq_none (Nat.le_of_not_lt h)]

theorem ptr_lt_of_pos (heap : Heap) (i : Nat) (h : 0 < (heap.getD i []).length) :
    i < heap.length := by
  by_contra hc
  rw [getD_beyond heap i hc] at h
  exact absurd h (by decide)

theorem take_succ_set (arr : List File) (n : Nat) (f : File) (h : n < arr.length) :
    (arr.set n f).take (n + 1) = arr.take n ++ [f] := by
  induction arr generalizing n with
  | nil => simp at h
  | cons a arr ih =>
    cases n with
    | zero => simp
    | succ n =>
      simp only [List.length_cons, Nat.add_lt_add_iff_right] at h
      simp [List.set, List.take, ih n h]

theorem take_set_le (arr : List File) (n m : Nat) (f : File) (h : m ≤ n) :
    (arr.set n f).take m = arr.take m := by
  induction arr generalizing n m with
  | nil => simp
  | cons a arr ih =>
    cases n with
    | zero => simp at h; simp [h]
    | succ n =>
      cases m with
      | zero => simp
      | succ m => simp [List.set, List.take, ih n m (by omega)]

theorem append_view (g : Nat → Nat) (heap : Heap) (s : Slice) (f : File) (h : s.WF heap) :
    (append g heap s f).2.view (append g heap s f).1 = s.view heap ++ [f] := by
  obtain ⟨h1, h2⟩ := h
  unfold append
  split
  · rename_i hlt
    have hp : s.ptr < heap.length := ptr_lt_of_pos heap s.ptr (by omega)
    simp only [Slice.view, getD_set_self heap _ _ hp]
    exact take_succ_set _ _ _ (by omega)
  · simp only [Slice.view, getD_append_new]
    apply List.take_left'
    rw [List.length_append, List.length_take]
    simp only [List.length_cons, List.length_nil]
    omega

theorem append_WF (g : Nat → Nat) (heap : Heap) (s : Slice) (f : File) (h : s.WF heap) :
    (append g heap s f).2.WF (append g heap s f).1 := by
  obtain ⟨h1, h2⟩ := h
  unfold append
  split
  · rename_i hlt
    have hp : s.ptr < heap.length := ptr_lt_of_pos heap s.ptr (by omega)
    simp only [Slice.WF, getD_set_self heap _ _ hp, List.length_set]
    omega
  · simp only [Slice.WF, getD_append_new, Slice.view, List.length_append, List.length_take,
      List.length_replicate, List.length_cons, List.length_nil]
    omega

theorem append_frame (g : Nat → Nat) (heap : Heap) (s t : Slice) (f : File)
    (ht : t.WF heap) (hc : t.Clear s) :
    t.view (append g heap s f).1 = t.view heap ∧ t.WF (append g heap s f).1 ∧
      t.Clear (append g heap s f).2 := by
  obtain ⟨h1, h2⟩ := ht
  unfold append
  split
  · rename_i hlt
    by_cases hp : s.ptr = t.ptr
    · have hlen : t.len ≤ s.len := by
        rcases hc with hc | hc | hc
        · exact absurd hp.symm hc
        · exact hc
        · omega
      by_cases hin : s.ptr < heap.length
      · have e := getD_set_self heap s.ptr ((heap.getD s.ptr []).set s.len f) hin
        refine ⟨?_, ⟨h1, ?_⟩, Or.inr (Or.inl ?_)⟩
        · show List.take t.len (List.getD (heap.set s.ptr _) t.ptr []) = _
          rw [← hp, e, take_set_le _ _ _ _ hlen]
          show _ = List.take t.len (List.getD heap t.ptr [])
          rw [hp]
        · show t.cap ≤ (List.getD (heap.set s.ptr _) t.ptr []).length
          rw [← hp, e, List.length_set, hp]
          exact h2
        · show t.len ≤ s.len + 1
          omega
      · have e : heap.set s.ptr ((heap.getD s.ptr []).set s.len f) = heap := by
          apply List.set_eq_of_length_le; omega
        rw [e]
        exact ⟨rfl, ⟨h1, h2⟩, Or.inr (Or.inl (by show t.len ≤ s.len + 1; omega))⟩
    · have e := getD_set_other heap s.ptr t.ptr ((heap.getD s.ptr []).set s.len f) hp
      refine ⟨?_, ⟨h1, ?_⟩, Or.inl (Ne.symm hp)⟩
      · show List.take t.len (List.getD (heap.set s.ptr _) t.ptr []) = _
        rw [e]; rfl
      · show t.cap ≤ (List.getD (heap.set s.ptr _) t.ptr []).length
        rw [e]; exact h2
  · by_cases hin : t.ptr < heap.length
    · have e := getD_append_old heap
        (s.view heap ++ [f] ++ List.replicate (g s.cap) default) t.ptr hin
      refine ⟨?_, ⟨h1, ?_⟩, Or.inl ?_⟩
      · show List.take t.len (List.getD (heap ++ [_]) t.ptr []) = _
        rw [e]; rfl
      · show t.cap ≤ (List.getD (heap ++ [_]) t.ptr []).length
        rw [e]; exact h2
      · show t.ptr ≠ heap.length
        omega
    · have e := getD_beyond heap t.ptr hin
      rw [e] at h2
      have hcap : t.cap = 0 := Nat.le_zero.mp h2
      have hl : t.len = 0 := by omega
      refine ⟨?_, ⟨h1, ?_⟩, Or.inr (Or.inl ?_)⟩
      · show List.take t.len _ = List.take t.len _
        rw [hl]; rfl
      · rw [hcap]; exact Nat.zero_le _
      · show t.len ≤ s.len + 1
        omega

/-! ## The values built from a request -/

theorem splitLoop_head (sep : Char) (cs cur : List Char) :
    (splitLoop sep cs cur)[0]? =
      some (String.mk (cur.reverse ++ cs.takeWhile (fun c => c != sep))) := by
  induction cs generalizing cur with
  | nil => simp [splitLoop]
  | cons c cs ih =>
    unfold splitLoop
    by_cases h : c = sep
    · simp [h]
    · have hne : (c != sep) = true := by simpa using h
      simp [h, ih, List.takeWhile, hne]

theorem Split_head (s : String) (sep : Char) :
    (Split s sep)[0]? = some (String.mk (s.data.takeWhile (fun c => c != sep))) := by
  simp [Split, splitLoop_head]

theorem nicValue_eq (r : Request) :
    nicValue r = some { Name := r.vars "nic", IP := callerIP r, Mask := r.vars "mask",
                        Gateway := r.vars "gateway", DNS := r.vars "dns" } := by
  simp [nicValue, Split_head, callerIP]

theorem bondValues_eq (r : Request) :
    bondValues r = some
      ({ Name := r.vars "bond", IP := callerIP r, Mask := r.vars "mask",
         Gateway := r.vars "gateway", DNS := r.vars "dns" },
       { Name := r.vars "nic1", Bond := r.vars "bond" },
       { Name := r.vars "nic1", Bond := r.vars "bond" }) := by
  simp [bondValues, Split_head, callerIP]

theorem callerIP_host (r : Request) (host port : String) (hc : ':' ∉ host.data)
    (h : r.RemoteAddr = host ++ ":" ++ port) : callerIP r = host := by
  have e : r.RemoteAddr.data = host.data ++ ':' :: port.data := by
    rw [h]; simp [String.data_append]
  unfold callerIP
  rw [e]
  have : ∀ (l rest : List Char), ':' ∉ l →
      (l ++ ':' :: rest).takeWhile (fun c => c != ':') = l := by
    intro l rest hl
    induction l with
    | nil => simp
    | cons a l ih =>
      simp only [List.mem_cons, not_or] at hl
      have ha : (a != ':') = true := by simpa using Ne.symm hl.1
      simp [List.takeWhile, ha, ih hl.2]
  rw [this _ _ hc]

/-! ## The handlers -/

theorem nicWrapper_parse_error (env : Env) (ignConfigs : List (String × Config)) (r : Request)
    (heap : Heap) (err : String)
    (h : env.ParseFiles (pathJoin templatesDir "nic.tmpl") = .error err) :
    nicWrapper env ignConfigs r heap = { heap := heap, ignData := none, out := .exited 1 err } := by
  simp only [nicWrapper, nicValue_eq, h, handleError]

theorem nicWrapper_parsed (env : Env) (ignConfigs : List (String × Config)) (r : Request)
    (heap : Heap) (tmpl : Template)
    (h : env.ParseFiles (pathJoin templatesDir "nic.tmpl") = .ok tmpl) :
    nicWrapper env ignConfigs r heap =
      let ignData := index ignConfigs (r.vars "type")
      let grown := append env.growslice heap ignData.Storage.Files (nicFileOf env r tmpl)
      let ignData : Config := { ignData with Storage := { ignData.Storage with Files := grown.2 } }
      match env.Marshal (ignData.read grown.1) with
      | .error err => { heap := grown.1, ignData := some ignData, out := .exited 1 err }
      | .ok data => { heap := grown.1, ignData := some ignData, out := .written 200 data } := by
  simp only [nicWrapper, nicValue_eq, h, handleError, nicFileOf]

theorem nicWrapper_written (env : Env) (ignConfigs : List (String × Config)) (r : Request)
    (heap : Heap) (st : Nat) (body : List Byte)
    (hwf : (index ignConfigs (r.vars "type")).Storage.Files.WF heap)
    (hdone : (nicWrapper env ignConfigs r heap).out = .written st body) :
    st = 200 ∧ ∃ tmpl cfg, env.ParseFiles (pathJoin templatesDir "nic.tmpl") = .ok tmpl ∧
      (nicWrapper env ignConfigs r heap).ignData = some cfg ∧
      env.Marshal (cfg.read (nicWrapper env ignConfigs r heap).heap) = .ok body ∧
      cfg.Storage.Files.view (nicWrapper env ignConfigs r heap).heap =
        (index ignConfigs (r.vars "type")).Storage.Files.view heap ++ [nicFileOf env r tmpl] := by
  cases hp : env.ParseFiles (pathJoin templatesDir "nic.tmpl") with
  | error err =>
    rw [nicWrapper_parse_error env ignConfigs r heap err hp] at hdone
    simp at hdone
  | ok tmpl =>
    rw [nicWrapper_parsed env ignConfigs r heap tmpl hp] at hdone ⊢
    simp only at hdone ⊢
    split at hdone
    · simp at hdone
    · rename_i data hm
      simp only [Outcome.written.injEq] at hdone
      obtain ⟨rfl, rfl⟩ := hdone
      exact ⟨rfl, tmpl, _, rfl, rfl, hm, append_view _ _ _ _ hwf⟩

theorem addTemplate_ok_inv (env : Env) (heap : Heap) (cfg : Config) (file path : String)
    (data : Data) (heap1 : Heap) (cfg1 : Config)
    (h : addTemplate env heap cfg file path data = .ok (heap1, cfg1)) :
    ∃ tmpl, env.ParseFiles file = .ok tmpl ∧ (Execute tmpl [] data).2 = none ∧
      heap1 = (append env.growslice heap cfg.Storage.Files
        (fileFromBytes env.DetectContentType path "root" 420 (Execute tmpl [] data).1)).1 ∧
      cfg1 = { cfg with Storage := { cfg.Storage with Files :=
        (append env.growslice heap cfg.Storage.Files
          (fileFromBytes env.DetectContentType path "root" 420 (Execute tmpl [] data).1)).2 } } := by
  unfold addTemplate at h
  cases hp : env.ParseFiles file with
  | error err => rw [hp] at h; simp at h
  | ok tmpl =>
    rw [hp] at h
    simp only at h
    cases he : Execute tmpl [] data with
    | mk buf err =>
      rw [he] at h
      cases err with
      | some e => simp at h
      | none =>
        simp only [Except.ok.injEq, Prod.mk.injEq] at h
        exact ⟨tmpl, rfl, by rw [he], by rw [he]; exact h.1.symm, by rw [he]; exact h.2.symm⟩

theorem addTemplate_error_inv (env : Env) (heap : Heap) (cfg : Config) (file path : String)
    (data : Data) (o : Outcome)
    (h : addTemplate env heap cfg file path data = .error o) :
    ∃ err, o = .exited 1 err ∧
      (env.ParseFiles file = .error err ∨
        ∃ tmpl, env.ParseFiles file = .ok tmpl ∧ (Execute tmpl [] data).2 = some err) := by
  unfold addTemplate at h
  cases hp : env.ParseFiles file with
  | error err =>
    rw [hp] at h
    simp only [handleError, Except.error.injEq] at h
    exact ⟨err, h.symm, Or.inl rfl⟩
  | ok tmpl =>
    rw [hp] at h
    simp only at h
    cases he : Execute tmpl [] data with
    | mk buf err =>
      rw [he] at h
      cases err with
      | some e =>
        simp only [handleError, Except.error.injEq] at h
        exact ⟨e, h.symm, Or.inr ⟨tmpl, rfl, by rw [he]⟩⟩
      | none => simp at h

theorem addTemplate_parse_error (env : Env) (heap : Heap) (cfg : Config) (file path : String)
    (data : Data) (err : String) (h : env.ParseFiles file = .error err) :
    addTemplate env heap cfg file path data = .error (.exited 1 err) := by
  simp only [addTemplate, h, handleError]

theorem addTemplate_exec_error (env : Env) (heap : Heap) (cfg : Config) (file path : String)
    (data : Data) (tmpl : Template) (err : String) (h : env.ParseFiles file = .ok tmpl)
    (he : (Execute tmpl [] data).2 = some err) :
    addTemplate env heap cfg file path data = .error (.exited 1 err) := by
  unfold addTemplate
  rw [h]
  simp only
  cases hx : Execute tmpl [] data with
  | mk buf e =>
    rw [hx] at he
    simp only at he
    subst he
    simp only [handleError]

theorem bondWrapper_cases (env : Env) (ignConfigs : List (String × Config)) (r : Request)
    (heap : Heap) :
    (∃ err, (bondWrapper env ignConfigs r heap).out = .exited 1 err) ∨
    (∃ body tb ts cfg,
      (bondWrapper env ignConfigs r heap).out = .written 200 body ∧
      env.ParseFiles (pathJoin templatesDir "bond.tmpl") = .ok tb ∧
      env.ParseFiles (pathJoin templatesDir "bondSlave.tmpl") = .ok ts ∧
      (Execute tb [] (.bond { Name := r.vars "bond", IP := callerIP r, Mask := r.vars "mask",
                              Gateway := r.vars "gateway", DNS := r.vars "dns" })).2 = none ∧
      (Execute ts [] (.slave { Name := r.vars "nic1", Bond := r.vars "bond" })).2 = none ∧
      (bondWrapper env ignConfigs r heap).ignData = some cfg ∧
      env.Marshal (cfg.read (bondWrapper env ignConfigs r heap).heap) = .ok body ∧
      ((index ignConfigs (r.vars "type")).Storage.Files.WF heap →
        cfg.Storage.Files.view (bondWrapper env ignConfigs r heap).heap =
          (index ignConfigs (r.vars "type")).Storage.Files.view heap ++ bondFilesOf env r tb ts)) := by
  simp only [bondWrapper, bondValues_eq]
  cases h1 : addTemplate env heap (index ignConfigs (r.vars "type"))
      (pathJoin templatesDir "bond.tmpl")
      ("/etc/sysconfig/network-scripts/ifcfg-" ++ r.vars "bond")
      (.bond { Name := r.vars "bond", IP := callerIP r, Mask := r.vars "mask",
               Gateway := r.vars "gateway", DNS := r.vars "dns" }) with
  | error o =>
    obtain ⟨err, rfl, _⟩ := addTemplate_error_inv _ _ _ _ _ _ _ h1
    exact Or.inl ⟨err, rfl⟩
  | ok p1 =>
    obtain ⟨heap1, cfg1⟩ := p1
    obtain ⟨tb, hpb, heb, hh1, hc1⟩ := addTemplate_ok_inv _ _ _ _ _ _ _ _ h1
    simp only
    cases h2 : addTemplate env heap1 cfg1 (pathJoin templatesDir "bondSlave.tmpl")
        ("/etc/sysconfig/network-scripts/ifcfg-" ++ r.vars "nic1")
        (.slave { Name := r.vars "nic1", Bond := r.vars "bond" }) with
    | error o =>
      obtain ⟨err, rfl, _⟩ := addTemplate_error_inv _ _ _ _ _ _ _ h2
      exact Or.inl ⟨err, rfl⟩
    | ok p2 =>
      obtain ⟨heap2, cfg2⟩ := p2
      obtain ⟨ts, hps, hes, hh2, hc2⟩ := addTemplate_ok_inv _ _ _ _ _ _ _ _ h2
      simp only
      cases h3 : addTemplate env heap2 cfg2 (pathJoin templatesDir "bondSlave.tmpl")
          ("/etc/sysconfig/network-scripts/ifcfg-" ++ r.vars "nic2")
          (.slave { Name := r.vars "nic1", Bond := r.vars "bond" }) with
      | error o =>
        obtain ⟨err, rfl, _⟩ := addTemplate_error_inv _ _ _ _ _ _ _ h3
        exact Or.inl ⟨err, rfl⟩
      | ok p3 =>
        obtain ⟨heap3, cfg3⟩ := p3
        obtain ⟨ts', hps', hes', hh3, hc3⟩ := addTemplate_ok_inv _ _ _ _ _ _ _ _ h3
        have ets : ts' = ts := by
          rw [hps] at hps'
          exact (Except.ok.inj hps').symm
        subst ets
        simp only
        cases hm : env.Marshal (cfg3.read heap3) with
        | error err => exact Or.inl ⟨err, rfl⟩
        | ok body =>
          refine Or.inr ⟨body, tb, ts', cfg3, rfl, hpb, hps, heb, hes, rfl, hm, ?_⟩
          intro hwf
          subst hh1 hc1 hh2 hc2 hh3 hc3
          have w1 := append_WF env.growslice heap _
            (fileFromBytes env.DetectContentType
              ("/etc/sysconfig/network-scripts/ifcfg-" ++ r.vars "bond") "root" 420
              (Execute tb [] (.bond ⟨r.vars "bond", callerIP r, r.vars "mask",
                r.vars "gateway", r.vars "dns"⟩)).1) hwf
          have w2 := append_WF env.growslice _ _
            (fileFromBytes env.DetectContentType
              ("/etc/sysconfig/network-scripts/ifcfg-" ++ r.vars "nic1") "root" 420
              (Execute ts' [] (.slave ⟨r.vars "nic1", r.vars "bond"⟩)).1) w1
          show Slice.view _ (append _ _ (append _ _ (append _ _ _ _).2 _).2 _).2 = _
          rw [append_view _ _ _ _ w2, append_view _ _ _ _ w1, append_view _ _ _ _ hwf]
          simp [bondFilesOf]

/-! ## What an append leaves alone -/

theorem addTemplate_frame (env : Env) (heap : Heap) (cfg : Config) (file path : String)
    (data : Data) (heap1 : Heap) (cfg1 : Config) (t : Slice)
    (h : addTemplate env heap cfg file path data = .ok (heap1, cfg1))
    (ht : t.WF heap) (hc : t.Clear cfg.Storage.Files) :
    t.view heap1 = t.view heap ∧ t.WF heap1 ∧ t.Clear cfg1.Storage.Files := by
  obtain ⟨tmpl, _, _, rfl, rfl⟩ := addTemplate_ok_inv _ _ _ _ _ _ _ _ h
  exact append_frame _ _ _ _ _ ht hc

theorem nicWrapper_frame (env : Env) (ignConfigs : List (String × Config)) (r : Request)
    (heap : Heap) (t : Slice) (ht : t.WF heap)
    (hc : t.Clear (index ignConfigs (r.vars "type")).Storage.Files) :
    t.view (nicWrapper env ignConfigs r heap).heap = t.view heap := by
  cases hp : env.ParseFiles (pathJoin templatesDir "nic.tmpl") with
  | error err => rw [nicWrapper_parse_error env ignConfigs r heap err hp]
  | ok tmpl =>
    rw [nicWrapper_parsed env ignConfigs r heap tmpl hp]
    simp only
    split <;> exact (append_frame _ _ _ _ _ ht hc).1

theorem bondWrapper_frame (env : Env) (ignConfigs : List (String × Config)) (r : Request)
    (heap : Heap) (t : Slice) (ht : t.WF heap)
    (hc : t.Clear (index ignConfigs (r.vars "type")).Storage.Files) :
    t.view (bondWrapper env ignConfigs r heap).heap = t.view heap := by
  simp only [bondWrapper, bondValues_eq]
  split
  · rfl
  · rename_i heap1 cfg1 h1
    obtain ⟨v1, w1, c1⟩ := addTemplate_frame _ _ _ _ _ _ _ _ t h1 ht hc
    split
    · exact v1
    · rename_i heap2 cfg2 h2
      obtain ⟨v2, w2, c2⟩ := addTemplate_frame _ _ _ _ _ _ _ _ t h2 w1 c1
      split
      · exact v2.trans v1
      · rename_i heap3 cfg3 h3
        obtain ⟨v3, w3, c3⟩ := addTemplate_frame _ _ _ _ _ _ _ _ t h3 w2 c2
        split <;> exact v3.trans (v2.trans v1)

theorem lookup_mem (l : List (String × Config)) (k : String) (c : Config)
    (h : l.lookup k = some c) : (k, c) ∈ l := by
  induction l with
  | nil => simp at h
  | cons a l ih =>
    obtain ⟨k', c'⟩ := a
    simp only [List.lookup] at h
    split at h
    · rename_i heq
      have hk : k = k' := by simpa using heq
      simp only [Option.some.injEq] at h
      subst hk h
      exact List.mem_cons_self _ _
    · exact List.mem_cons_of_mem _ (ih h)

theorem index_cases (l : List (String × Config)) (k : String) :
    index l k = {} ∨ (k, index l k) ∈ l := by
  unfold index
  cases h : l.lookup k with
  | none => exact Or.inl rfl
  | some c => exact Or.inr (lookup_mem l k c h)

theorem store_clear (heap : Heap) (ignConfigs : List (String × Config))
    (h : StoreOK heap ignConfigs) (k k' : String) :
    (index ignConfigs k').Storage.Files.WF heap ∧
      (index ignConfigs k').Storage.Files.Clear (index ignConfigs k).Storage.Files := by
  obtain ⟨hwf, hpw⟩ := h
  have wf : ∀ key, (index ignConfigs key).Storage.Files.WF heap := by
    intro key
    rcases index_cases ignConfigs key with e | m
    · rw [e]; exact ⟨Nat.le_refl _, Nat.zero_le _⟩
    · exact hwf _ m
  refine ⟨wf k', ?_⟩
  rcases index_cases ignConfigs k' with e' | m'
  · rw [e']; exact Or.inr (Or.inl (Nat.zero_le _))
  · rcases index_cases ignConfigs k with e | m
    · rw [e]; exact Or.inr (Or.inr (Nat.le_refl _))
    · by_cases hab : (k', index ignConfigs k') = (k, index ignConfigs k)
      · have : index ignConfigs k' = index ignConfigs k := (Prod.mk.inj hab).2
        rw [this]; exact Or.inr (Or.inl (Nat.le_refl _))
      · have hs : Symmetric (fun a b : String × Config =>
            a.2.Storage.Files.cap = 0 ∨ b.2.Storage.Files.cap = 0 ∨
              a.2.Storage.Files.ptr ≠ b.2.Storage.Files.ptr) := by
          intro a b hab
          rcases hab with h1 | h1 | h1
          · exact Or.inr (Or.inl h1)
          · exact Or.inl h1
          · exact Or.inr (Or.inr (Ne.symm h1))
        rcases hpw.forall hs m' m hab with h1 | h1 | h1
        · have := (wf k').1
          simp only at h1
          exact Or.inr (Or.inl (by omega))
        · simp only at h1
          exact Or.inr (Or.inr (by omega))
        · exact Or.inl h1

theorem nicWrapper_cases (env : Env) (ignConfigs : List (String × Config)) (r : Request)
    (heap : Heap) :
    (∃ err, (nicWrapper env ignConfigs r heap).out = .exited 1 err) ∨
    (∃ body tmpl cfg,
      (nicWrapper env ignConfigs r heap).out = .written 200 body ∧
      env.ParseFiles (pathJoin templatesDir "nic.tmpl") = .ok tmpl ∧
      (nicWrapper env ignConfigs r heap).ignData = some cfg ∧
      env.Marshal (cfg.read (nicWrapper env ignConfigs r heap).heap) = .ok body) := by
  cases hp : env.ParseFiles (pathJoin templatesDir "nic.tmpl") with
  | error err =>
    rw [nicWrapper_parse_error env ignConfigs r heap err hp]
    exact Or.inl ⟨err, rfl⟩
  | ok tmpl =>
    rw [nicWrapper_parsed env ignConfigs r heap tmpl hp]
    simp only
    split
    · rename_i err _
      exact Or.inl ⟨err, rfl⟩
    · rename_i data hm
      exact Or.inr ⟨data, tmpl, _, rfl, rfl, rfl, hm⟩

theorem nicWrapper_local (env : Env) (ignConfigs : List (String × Config)) (r : Request)
    (heap : Heap) (cfg : Config)
    (hwf : (index ignConfigs (r.vars "type")).Storage.Files.WF heap)
    (h : (nicWrapper env ignConfigs r heap).ignData = some cfg) :
    ∃ tmpl, env.ParseFiles (pathJoin templatesDir "nic.tmpl") = .ok tmpl ∧
      cfg.Storage.Files.view (nicWrapper env ignConfigs r heap).heap =
        (index ignConfigs (r.vars "type")).Storage.Files.view heap ++ [nicFileOf env r tmpl] ∧
      cfg.Storage.Others = (index ignConfigs (r.vars "type")).Storage.Others ∧
      cfg.Others = (index ignConfigs (r.vars "type")).Others ∧
      ((nicWrapper env ignConfigs r heap).out =
        match env.Marshal (cfg.read (nicWrapper env ignConfigs r heap).heap) with
        | .error err => .exited 1 err
        | .ok data => .written 200 data) := by
  cases hp : env.ParseFiles (pathJoin templatesDir "nic.tmpl") with
  | error err =>
    rw [nicWrapper_parse_error env ignConfigs r heap err hp] at h
    simp at h
  | ok tmpl =>
    rw [nicWrapper_parsed env ignConfigs r heap tmpl hp] at h ⊢
    simp only at h ⊢
    split at h
    · rename_i err hm
      simp only [Option.some.injEq] at h
      subst h
      refine ⟨tmpl, rfl, append_view _ _ _ _ hwf, rfl, rfl, ?_⟩
      rw [hm]
    · rename_i data hm
      simp only [Option.some.injEq] at h
      subst h
      refine ⟨tmpl, rfl, append_view _ _ _ _ hwf, rfl, rfl, ?_⟩
      rw [hm]

theorem takeWhile_longest (l q : List Char) (hq : q <+: l) (hc : ':' ∉ q) :
    q <+: l.takeWhile (fun c => c != ':') := by
  induction l generalizing q with
  | nil =>
    have : q = [] := List.prefix_nil.mp hq
    subst this
    exact List.nil_prefix
  | cons a l ih =>
    cases q with
    | nil => exact List.nil_prefix
    | cons b q =>
      obtain ⟨hab, hql⟩ := List.cons_prefix_cons.mp hq
      subst hab
      simp only [List.mem_cons, not_or] at hc
      have hb : (b != ':') = true := by simpa using Ne.symm hc.1
      rw [List.takeWhile_cons, hb]
      exact List.cons_prefix_cons.mpr ⟨rfl, ih q hql hc.2⟩

theorem takeWhile_no_colon (l : List Char) : ':' ∉ l.takeWhile (fun c => c != ':') := by
  intro h
  have := List.mem_takeWhile_imp h
  simp at this

/-! ## Handlers step by step -/

theorem addTemplate_ok (env : Env) (heap : Heap) (cfg : Config) (file path : String)
    (data : Data) (tmpl : Template) (h : env.ParseFiles file = .ok tmpl)
    (he : (Execute tmpl [] data).2 = none) :
    addTemplate env heap cfg file path data =
      .ok ((append env.growslice heap cfg.Storage.Files
              (fileFromBytes env.DetectContentType path "root" 420 (Execute tmpl [] data).1)).1,
           { cfg with Storage := { cfg.Storage with Files :=
              (append env.growslice heap cfg.Storage.Files
                (fileFromBytes env.DetectContentType path "root" 420
                  (Execute tmpl [] data).1)).2 } }) := by
  unfold addTemplate
  rw [h]
  simp only
  cases hx : Execute tmpl [] data with
  | mk buf e =>
    rw [hx] at he
    simp only at he
    subst he
    rfl

theorem step_nic_parse_error (env : Env) (ignConfigs : List (String × Config)) (r : Request)
    (heap : Heap) (err : String)
    (h : env.ParseFiles (pathJoin templatesDir "nic.tmpl") = .error err) :
    step env ignConfigs heap (.nic r) = (heap, .finished (.exited 1 err)) := by
  simp only [step, nicAppend, nicValue_eq, h, handleError]

theorem step_nic_parsed (env : Env) (ignConfigs : List (String × Config)) (r : Request)
    (heap : Heap) (tmpl : Template)
    (h : env.ParseFiles (pathJoin templatesDir "nic.tmpl") = .ok tmpl) :
    step env ignConfigs heap (.nic r) =
      ((append env.growslice heap (index ignConfigs (r.vars "type")).Storage.Files
          (nicFileOf env r tmpl)).1,
        .marshal { index ignConfigs (r.vars "type") with
          Storage := { (index ignConfigs (r.vars "type")).Storage with
            Files := (append env.growslice heap (index ignConfigs (r.vars "type")).Storage.Files
              (nicFileOf env r tmpl)).2 } }) := by
  simp only [step, nicAppend, nicValue_eq, h, nicFileOf]

theorem respond_eq (env : Env) (heap : Heap) (cfg : Config) :
    respond env heap cfg =
      match env.Marshal (cfg.read heap) with
      | .error err => .exited 1 err
      | .ok data => .written 200 data := rfl

theorem advance_running (env : Env) (ignConfigs : List (String × Config)) (heap : Heap)
    (t : Thread) (h : ∀ code printed, t ≠ .finished (.exited code printed)) :
    World.advance env ignConfigs { heap := heap, threads := [t] } 0 =
      { heap := (step env ignConfigs heap t).1, threads := [(step env ignConfigs heap t).2] } := by
  have he : World.exited { heap := heap, threads := [t] } = false := by
    simp only [World.exited, List.any, Bool.or_false]
  simp only [World.advance, he, Bool.false_eq_true, if_false, List.getElem?_cons_zero, List.set]

theorem advance_exited (env : Env) (ignConfigs : List (String × Config)) (heap : Heap)
    (code : Nat) (printed : String) (i : Nat) :
    World.advance env ignConfigs
        { heap := heap, threads := [.finished (.exited code printed)] } i =
      { heap := heap, threads := [.finished (.exited code printed)] } := by
  simp [World.advance, World.exited]

/-- Run with no other handler in flight, the steps of a NIC handler do what
`nicWrapper` does. -/
theorem nicWrapper_alone (env : Env) (ignConfigs : List (String × Config)) (r : Request)
    (heap : Heap) :
    run env ignConfigs [0, 0] { heap := heap, threads := [.nic r] } =
      { heap := (nicWrapper env ignConfigs r heap).heap
        threads := [.finished (nicWrapper env ignConfigs r heap).out] } := by
  show World.advance env ignConfigs
    (World.advance env ignConfigs { heap := heap, threads := [.nic r] } 0) 0 = _
  rw [advance_running env ignConfigs heap (.nic r) (by intro _ _ h; cases h)]
  cases hp : env.ParseFiles (pathJoin templatesDir "nic.tmpl") with
  | error err =>
    rw [nicWrapper_parse_error env ignConfigs r heap err hp,
      step_nic_parse_error env ignConfigs r heap err hp, advance_exited]
  | ok tmpl =>
    rw [nicWrapper_parsed env ignConfigs r heap tmpl hp,
      step_nic_parsed env ignConfigs r heap tmpl hp,
      advance_running env ignConfigs _ (.marshal _) (by intro _ _ h; cases h)]
    simp only [step, respond_eq]
    split <;> rfl

theorem bondWrapper_reached (env : Env) (ignConfigs : List (String × Config)) (r : Request)
    (heap : Heap) (tb ts : Template)
    (hpb : env.ParseFiles (pathJoin templatesDir "bond.tmpl") = .ok tb)
    (heb : (Execute tb [] (.bond { Name := r.vars "bond", IP := callerIP r,
                                   Mask := r.vars "mask", Gateway := r.vars "gateway",
                                   DNS := r.vars "dns" })).2 = none)
    (hps : env.ParseFiles (pathJoin templatesDir "bondSlave.tmpl") = .ok ts)
    (hes : (Execute ts [] (.slave { Name := r.vars "nic1", Bond := r.vars "bond" })).2 = none) :
    ∃ heap3 cfg3,
      bondWrapper env ignConfigs r heap =
        (match env.Marshal (cfg3.read heap3) with
         | .error err => { heap := heap3, ignData := some cfg3, out := .exited 1 err }
         | .ok data => { heap := heap3, ignData := some cfg3, out := .written 200 data }) ∧
      ((index ignConfigs (r.vars "type")).Storage.Files.WF heap →
        cfg3.Storage.Files.view heap3 =
          (index ignConfigs (r.vars "type")).Storage.Files.view heap ++
            bondFilesOf env r tb ts) := by
  simp only [bondWrapper, bondValues_eq]
  rw [addTemplate_ok env _ _ _ _ _ tb hpb heb]
  simp only
  rw [addTemplate_ok env _ _ _ _ _ ts hps hes]
  simp only
  rw [addTemplate_ok env _ _ _ _ _ ts hps hes]
  simp only [handleError]
  refine ⟨_, _, rfl, ?_⟩
  intro hwf
  have w1 := append_WF env.growslice heap _
    (fileFromBytes env.DetectContentType
      ("/etc/sysconfig/network-scripts/ifcfg-" ++ r.vars "bond") "root" 420
      (Execute tb [] (.bond ⟨r.vars "bond", callerIP r, r.vars "mask",
        r.vars "gateway", r.vars "dns"⟩)).1) hwf
  have w2 := append_WF env.growslice _ _
    (fileFromBytes env.DetectContentType
      ("/etc/sysconfig/network-scripts/ifcfg-" ++ r.vars "nic1") "root" 420
      (Execute ts [] (.slave ⟨r.vars "nic1", r.vars "bond"⟩)).1) w1
  show Slice.view _ (append _ _ (append _ _ (append _ _ _ _).2 _).2 _).2 = _
  rw [append_view _ _ _ _ w2, append_view _ _ _ _ w1, append_view _ _ _ _ hwf]
  simp [bondFilesOf]

/-- Run with no other handler in flight, the steps of a bond handler do what
`bondWrapper` does. -/
theorem bondWrapper_alone (env : Env) (ignConfigs : List (String × Config)) (r : Request)
    (heap : Heap) :
    run env ignConfigs [0, 0, 0, 0] { heap := heap, threads := [.bond r] } =
      { heap := (bondWrapper env ignConfigs r heap).heap
        threads := [.finished (bondWrapper env ignConfigs r heap).out] } := by
  show World.advance env ignConfigs (World.advance env ignConfigs
    (World.advance env ignConfigs
      (World.advance env ignConfigs { heap := heap, threads := [.bond r] } 0) 0) 0) 0 = _
  rw [advance_running env ignConfigs heap (.bond r) (by intro _ _ h; cases h)]
  simp only [bondWrapper, step, bondValues_eq]
  cases h1 : addTemplate env heap (index ignConfigs (r.vars "type"))
      (pathJoin templatesDir "bond.tmpl")
      ("/etc/sysconfig/network-scripts/ifcfg-" ++ r.vars "bond")
      (.bond { Name := r.vars "bond", IP := callerIP r, Mask := r.vars "mask",
               Gateway := r.vars "gateway", DNS := r.vars "dns" }) with
  | error o =>
    obtain ⟨err, rfl, _⟩ := addTemplate_error_inv _ _ _ _ _ _ _ h1
    simp only [advance_exited]
  | ok p1 =>
    obtain ⟨heap1, cfg1⟩ := p1
    simp only
    rw [advance_running env ignConfigs heap1 (.bondNic1 r cfg1) (by intro _ _ h; cases h)]
    simp only [step, bondValues_eq]
    cases h2 : addTemplate env heap1 cfg1 (pathJoin templatesDir "bondSlave.tmpl")
        ("/etc/sysconfig/network-scripts/ifcfg-" ++ r.vars "nic1")
        (.slave { Name := r.vars "nic1", Bond := r.vars "bond" }) with
    | error o =>
      obtain ⟨err, rfl, _⟩ := addTemplate_error_inv _ _ _ _ _ _ _ h2
      simp only [advance_exited]
    | ok p2 =>
      obtain ⟨heap2, cfg2⟩ := p2
      simp only
      rw [advance_running env ignConfigs heap2 (.bondNic2 r cfg2) (by intro _ _ h; cases h)]
      simp only [step, bondValues_eq]
      cases h3 : addTemplate env heap2 cfg2 (pathJoin templatesDir "bondSlave.tmpl")
          ("/etc/sysconfig/network-scripts/ifcfg-" ++ r.vars "nic2")
          (.slave { Name := r.vars "nic1", Bond := r.vars "bond" }) with
      | error o =>
        obtain ⟨err, rfl, _⟩ := addTemplate_error_inv _ _ _ _ _ _ _ h3
        simp only [advance_exited]
      | ok p3 =>
        obtain ⟨heap3, cfg3⟩ := p3
        simp only
        rw [advance_running env ignConfigs heap3 (.marshal cfg3) (by intro _ _ h; cases h)]
        simp only [step, respond_eq, handleError]
        split <;> rfl

/-! ## The stored configurations under interleaving -/

theorem step_frame (env : Env) (ignConfigs : List (String × Config)) (heap : Heap)
    (th : Thread) (t : Slice) (ht : t.WF heap)
    (hs : ∀ key, t.Clear (index ignConfigs key).Storage.Files)
    (hl : ∀ c, th.ignData = some c → t.Clear c.Storage.Files) :
    t.view (step env ignConfigs heap th).1 = t.view heap ∧
      t.WF (step env ignConfigs heap th).1 ∧
      ∀ c, (step env ignConfigs heap th).2.ignData = some c → t.Clear c.Storage.Files := by
  cases th with
  | nic r =>
    cases hp : env.ParseFiles (pathJoin templatesDir "nic.tmpl") with
    | error err =>
      rw [step_nic_parse_error env ignConfigs r heap err hp]
      exact ⟨rfl, ht, by intro c h; cases h⟩
    | ok tmpl =>
      rw [step_nic_parsed env ignConfigs r heap tmpl hp]
      obtain ⟨v, w, c1⟩ := append_frame env.growslice heap _ t (nicFileOf env r tmpl) ht
        (hs (r.vars "type"))
      refine ⟨v, w, ?_⟩
      intro c h
      simp only [Thread.ignData, Option.some.injEq] at h
      subst h
      exact c1
  | bond r =>
    simp only [step, bondValues_eq]
    split
    · exact ⟨rfl, ht, by intro c h; cases h⟩
    · rename_i heap1 cfg1 h1
      obtain ⟨v, w, c1⟩ := addTemplate_frame _ _ _ _ _ _ _ _ t h1 ht (hs (r.vars "type"))
      refine ⟨v, w, ?_⟩
      intro c h
      simp only [Thread.ignData, Option.some.injEq] at h
      subst h
      exact c1
  | bondNic1 r cfg =>
    simp only [step, bondValues_eq]
    split
    · exact ⟨rfl, ht, by intro c h; cases h⟩
    · rename_i heap1 cfg1 h1
      obtain ⟨v, w, c1⟩ := addTemplate_frame _ _ _ _ _ _ _ _ t h1 ht (hl cfg rfl)
      refine ⟨v, w, ?_⟩
      intro c h
      simp only [Thread.ignData, Option.some.injEq] at h
      subst h
      exact c1
  | bondNic2 r cfg =>
    simp only [step, bondValues_eq]
    split
    · exact ⟨rfl, ht, by intro c h; cases h⟩
    · rename_i heap1 cfg1 h1
      obtain ⟨v, w, c1⟩ := addTemplate_frame _ _ _ _ _ _ _ _ t h1 ht (hl cfg rfl)
      refine ⟨v, w, ?_⟩
      intro c h
      simp only [Thread.ignData, Option.some.injEq] at h
      subst h
      exact c1
  | marshal cfg => exact ⟨rfl, ht, by intro c h; cases h⟩
  | finished o => exact ⟨rfl, ht, by intro c h; cases h⟩

theorem advance_frame (env : Env) (ignConfigs : List (String × Config)) (w : World) (i : Nat)
    (t : Slice) (ht : t.WF w.heap)
    (hs : ∀ key, t.Clear (index ignConfigs key).Storage.Files)
    (hl : ∀ th ∈ w.threads, ∀ c, th.ignData = some c → t.Clear c.Storage.Files) :
    t.view (World.advance env ignConfigs w i).heap = t.view w.heap ∧
      t.WF (World.advance env ignConfigs w i).heap ∧
      ∀ th ∈ (World.advance env ignConfigs w i).threads,
        ∀ c, th.ignData = some c → t.Clear c.Storage.Files := by
  unfold World.advance
  split
  · exact ⟨rfl, ht, hl⟩
  · split
    · exact ⟨rfl, ht, hl⟩
    · rename_i th hth
      have hmem : th ∈ w.threads := List.getElem?_mem hth
      obtain ⟨v, wf, c1⟩ := step_frame env ignConfigs w.heap th t ht hs (hl th hmem)
      refine ⟨v, wf, ?_⟩
      intro th' hth' c hc
      rcases List.mem_or_eq_of_mem_set hth' with h | h
      · exact hl th' h c hc
      · subst h
        exact c1 c hc

theorem run_frame (env : Env) (ignConfigs : List (String × Config)) (schedule : List Nat)
    (w : World) (t : Slice) (ht : t.WF w.heap)
    (hs : ∀ key, t.Clear (index ignConfigs key).Storage.Files)
    (hl : ∀ th ∈ w.threads, ∀ c, th.ignData = some c → t.Clear c.Storage.Files) :
    t.view (run env ignConfigs schedule w).heap = t.view w.heap := by
  induction schedule generalizing w with
  | nil => rfl
  | cons i rest ih =>
    obtain ⟨v, wf, c1⟩ := advance_frame env ignConfigs w i t ht hs hl
    show t.view (run env ignConfigs rest (World.advance env ignConfigs w i)).heap = _
    rw [ih _ wf c1, v]

/-- In a well-formed role map every stored configuration reads the same after any
run of handlers that start in the given heap, however their steps interleave. -/
theorem run_store_unchanged (env : Env) (ignConfigs : List (String × Config))
    (schedule : List Nat) (heap : Heap) (threads : List Thread) (role : String)
    (h : StoreOK heap ignConfigs) (hstart : ∀ th ∈ threads, th.ignData = none) :
    (index ignConfigs role).read
        (run env ignConfigs schedule { heap := heap, threads := threads }).heap =
      (index ignConfigs role).read heap := by
  have hwf := (store_clear heap ignConfigs h role role).1
  have hv := run_frame env ignConfigs schedule { heap := heap, threads := threads }
    (index ignConfigs role).Storage.Files hwf
    (fun key => (store_clear heap ignConfigs h key role).2)
    (by
      intro th hth c hc
      rw [hstart th hth] at hc
      cases hc)
  simp only [Config.read, hv]

/-! ## The claims -/

/-- C1: the bond handler names its second slave after `nic1`, not `nic2`. For
the request with bond `bond0`, `nic1 = eth0` and `nic2 = eth1` the second slave
value is `{Name: eth0, Bond: bond0}`, and the third generated file, at path
`ifcfg-eth1`, holds the slave template rendered for `eth0`, which differs from
its rendering for `eth1`. -/
theorem bond_second_slave_named_nic1 :
    (bondValues bondRequest).map (fun v => v.2.2) = some { Name := "eth0", Bond := "bond0" } ∧
    (bondWrapper exampleEnv exampleStore bondRequest exampleHeap).ignData.map (fun c =>
      ((c.read (bondWrapper exampleEnv exampleStore bondRequest exampleHeap).heap).Files.drop 3).map
        (fun f => (f.Node.Path, DecodeString f.Contents.Source))) =
      some [("/etc/sysconfig/network-scripts/ifcfg-eth1",
             some (bytesOf "DEVICE=eth0\nMASTER=bond0"))] ∧
    (Execute slaveTemplate []
      (.slave { Name := "eth1", Bond := "bond0" })).1 = bytesOf "DEVICE=eth1\nMASTER=bond0" ∧
    bytesOf "DEVICE=eth0\nMASTER=bond0" ≠ bytesOf "DEVICE=eth1\nMASTER=bond0" := by
  decide

/-- C2, as stated, fails: with the NIC template missing, template parsing fails
and the NIC handler exits the process with status 1; it writes no response with
status 500. -/
theorem nic_parse_failure_exits :
    missingEnv.ParseFiles (pathJoin templatesDir "nic.tmpl") =
      .error "open templates/nic.tmpl: no such file or directory" ∧
    (nicWrapper missingEnv exampleStore nicRequest exampleHeap).out =
      .exited 1 "open templates/nic.tmpl: no such file or directory" ∧
    ¬ ∃ body, (nicWrapper missingEnv exampleStore nicRequest exampleHeap).out =
      .written 500 body := by
  have h : (nicWrapper missingEnv exampleStore nicRequest exampleHeap).out =
      .exited 1 "open templates/nic.tmpl: no such file or directory" := by decide
  refine ⟨rfl, h, ?_⟩
  rintro ⟨body, hb⟩
  rw [h] at hb
  cases hb

/-- C2, amended: every failure a handler checks makes it print that error and
exit the process with status 1, and no run writes a status other than 200. In
`nicWrapper` these are a failed parse of `nic.tmpl` and a failed serialization;
in `bondWrapper` a failed parse or execution of `bond.tmpl`, a failed parse or
execution of `bondSlave.tmpl`, and a failed serialization. A response is written
only when all of them succeeded. The same holds statement by statement, in any
heap: `addTemplate` exits with the parse or execution error, and the
serialization step exits with the serializer's error. -/
theorem failures_exit_process (env : Env) (ignConfigs : List (String × Config)) (r : Request)
    (heap : Heap) :
    ((∃ err, (nicWrapper env ignConfigs r heap).out = .exited 1 err) ∨
      (∃ body tmpl cfg,
        (nicWrapper env ignConfigs r heap).out = .written 200 body ∧
        env.ParseFiles (pathJoin templatesDir "nic.tmpl") = .ok tmpl ∧
        (nicWrapper env ignConfigs r heap).ignData = some cfg ∧
        env.Marshal (cfg.read (nicWrapper env ignConfigs r heap).heap) = .ok body)) ∧
    ((∃ err, (bondWrapper env ignConfigs r heap).out = .exited 1 err) ∨
      (∃ body tb ts cfg,
        (bondWrapper env ignConfigs r heap).out = .written 200 body ∧
        env.ParseFiles (pathJoin templatesDir "bond.tmpl") = .ok tb ∧
        env.ParseFiles (pathJoin templatesDir "bondSlave.tmpl") = .ok ts ∧
        (Execute tb [] (.bond { Name := r.vars "bond", IP := callerIP r, Mask := r.vars "mask",
                                Gateway := r.vars "gateway", DNS := r.vars "dns" })).2 = none ∧
        (Execute ts [] (.slave { Name := r.vars "nic1", Bond := r.vars "bond" })).2 = none ∧
        (bondWrapper env ignConfigs r heap).ignData = some cfg ∧
        env.Marshal (cfg.read (bondWrapper env ignConfigs r heap).heap) = .ok body)) ∧
    (∀ err, env.ParseFiles (pathJoin templatesDir "nic.tmpl") = .error err →
      (nicWrapper env ignConfigs r heap).out = .exited 1 err) ∧
    (∀ cfg err, (nicWrapper env ignConfigs r heap).ignData = some cfg →
      env.Marshal (cfg.read (nicWrapper env ignConfigs r heap).heap) = .error err →
      (nicWrapper env ignConfigs r heap).out = .exited 1 err) ∧
    (∀ err, env.ParseFiles (pathJoin templatesDir "bond.tmpl") = .error err →
      (bondWrapper env ignConfigs r heap).out = .exited 1 err) ∧
    (∀ tb err, env.ParseFiles (pathJoin templatesDir "bond.tmpl") = .ok tb →
      (Execute tb [] (.bond { Name := r.vars "bond", IP := callerIP r, Mask := r.vars "mask",
                              Gateway := r.vars "gateway", DNS := r.vars "dns" })).2 = some err →
      (bondWrapper env ignConfigs r heap).out = .exited 1 err) ∧
    (∀ tb err, env.ParseFiles (pathJoin templatesDir "bond.tmpl") = .ok tb →
      (Execute tb [] (.bond { Name := r.vars "bond", IP := callerIP r, Mask := r.vars "mask",
                              Gateway := r.vars "gateway", DNS := r.vars "dns" })).2 = none →
      env.ParseFiles (pathJoin templatesDir "bondSlave.tmpl") = .error err →
      (bondWrapper env ignConfigs r heap).out = .exited 1 err) ∧
    (∀ tb ts err, env.ParseFiles (pathJoin templatesDir "bond.tmpl") = .ok tb →
      (Execute tb [] (.bond { Name := r.vars "bond", IP := callerIP r, Mask := r.vars "mask",
                              Gateway := r.vars "gateway", DNS := r.vars "dns" })).2 = none →
      env.ParseFiles (pathJoin templatesDir "bondSlave.tmpl") = .ok ts →
      (Execute ts [] (.slave { Name := r.vars "nic1", Bond := r.vars "bond" })).2 = some err →
      (bondWrapper env ignConfigs r heap).out = .exited 1 err) ∧
    (∀ tb ts cfg err, env.ParseFiles (pathJoin templatesDir "bond.tmpl") = .ok tb →
      (Execute tb [] (.bond { Name := r.vars "bond", IP := callerIP r, Mask := r.vars "mask",
                              Gateway := r.vars "gateway", DNS := r.vars "dns" })).2 = none →
      env.ParseFiles (pathJoin templatesDir "bondSlave.tmpl") = .ok ts →
      (Execute ts [] (.slave { Name := r.vars "nic1", Bond := r.vars "bond" })).2 = none →
      (bondWrapper env ignConfigs r heap).ignData = some cfg →
      env.Marshal (cfg.read (bondWrapper env ignConfigs r heap).heap) = .error err →
      (bondWrapper env ignConfigs r heap).out = .exited 1 err) ∧
    (∀ (heap1 : Heap) (cfg : Config) (file path : String) (data : Data) (err : String),
      env.ParseFiles file = .error err →
      addTemplate env heap1 cfg file path data = .error (.exited 1 err)) ∧
    (∀ (heap1 : Heap) (cfg : Config) (file path : String) (data : Data) (tmpl : Template)
        (err : String),
      env.ParseFiles file = .ok tmpl → (Execute tmpl [] data).2 = some err →
      addTemplate env heap1 cfg file path data = .error (.exited 1 err)) ∧
    (∀ (heap1 : Heap) (cfg : Config) (err : String),
      env.Marshal (cfg.read heap1) = .error err →
      step env ignConfigs heap1 (.marshal cfg) = (heap1, .finished (.exited 1 err))) ∧
    (∀ (heap1 : Heap) (cfg : Config) (st : Nat) (body : List Byte),
      (step env ignConfigs heap1 (.marshal cfg)).2 = .finished (.written st body) →
      st = 200 ∧ env.Marshal (cfg.read heap1) = .ok body) := by
  refine ⟨nicWrapper_cases env ignConfigs r heap, ?_, ?_, ?_, ?_, ?_, ?_, ?_, ?_, ?_, ?_, ?_, ?_⟩
  · rcases bondWrapper_cases env ignConfigs r heap with h | h
    · exact Or.inl h
    · obtain ⟨body, tb, ts, cfg, h1, h2, h3, h4, h5, h6, h7, _⟩ := h
      exact Or.inr ⟨body, tb, ts, cfg, h1, h2, h3, h4, h5, h6, h7⟩
  · intro err hp
    rw [nicWrapper_parse_error env ignConfigs r heap err hp]
  · intro cfg err hc hm
    cases hp : env.ParseFiles (pathJoin templatesDir "nic.tmpl") with
    | error e =>
      rw [nicWrapper_parse_error env ignConfigs r heap e hp] at hc
      simp at hc
    | ok tmpl =>
      rw [nicWrapper_parsed env ignConfigs r heap tmpl hp] at hc hm ⊢
      simp only at hc hm ⊢
      split at hc
      · rename_i e he
        simp only [Option.some.injEq] at hc
        subst hc
        rw [he] at hm
        exact congrArg (Outcome.exited 1) (Except.error.inj (he.symm.trans hm))
      · rename_i d hd
        simp only [Option.some.injEq] at hc
        subst hc
        rw [hd] at hm
        cases hd.symm.trans hm
  · intro err hp
    simp only [bondWrapper, bondValues_eq]
    rw [addTemplate_parse_error env _ _ _ _ _ err hp]
  · intro tb err hp he
    simp only [bondWrapper, bondValues_eq]
    rw [addTemplate_exec_error env _ _ _ _ _ tb err hp he]
  · intro tb err hpb heb hps
    simp only [bondWrapper, bondValues_eq]
    rw [addTemplate_ok env _ _ _ _ _ tb hpb heb]
    simp only
    rw [addTemplate_parse_error env _ _ _ _ _ err hps]
  · intro tb ts err hpb heb hps hes
    simp only [bondWrapper, bondValues_eq]
    rw [addTemplate_ok env _ _ _ _ _ tb hpb heb]
    simp only
    rw [addTemplate_exec_error env _ _ _ _ _ ts err hps hes]
  · intro tb ts cfg err hpb heb hps hes hc hm
    obtain ⟨heap3, cfg3, hrun, _⟩ :=
      bondWrapper_reached env ignConfigs r heap tb ts hpb heb hps hes
    rw [hrun] at hc hm ⊢
    split at hc
    · rename_i e he
      simp only [Option.some.injEq] at hc
      subst hc
      rw [he] at hm
      exact congrArg (Outcome.exited 1) (Except.error.inj (he.symm.trans hm))
    · rename_i d hd
      simp only [Option.some.injEq] at hc
      subst hc
      rw [hd] at hm
      cases hd.symm.trans hm
  · intro heap1 cfg file path data err hp
    exact addTemplate_parse_error env heap1 cfg file path data err hp
  · intro heap1 cfg file path data tmpl err hp he
    exact addTemplate_exec_error env heap1 cfg file path data tmpl err hp he
  · intro heap1 cfg err hm
    simp only [step, respond_eq, hm]
  · intro heap1 cfg st body h
    simp only [step, respond_eq] at h
    split at h
    · cases h
    · rename_i d hd
      simp only [Thread.finished.injEq, Outcome.written.injEq] at h
      obtain ⟨rfl, rfl⟩ := h
      exact ⟨rfl, hd⟩

/-- C3: for every byte sequence `b` and every path, username and mode, decoding
the data URL stored in `fileFromBytes(path, username, mode, b).Contents.Source`
yields exactly `b`, for every content sniffer whose media type for `b` holds no
comma (as every media type of `http.DetectContentType` does). -/
theorem fileFromBytes_roundtrip (detect : List Byte → String) (path username : String)
    (mode : Int) (b : List Byte) (h : ',' ∉ (detect b).data) :
    DecodeString (fileFromBytes detect path username mode b).Contents.Source = some b :=
  DecodeString_EncodeBytes detect b h

/-- C3 at the binary bytes `00 ff 89 50`, sniffed as `application/octet-stream`. -/
theorem fileFromBytes_roundtrip_witness :
    ',' ∉ "application/octet-stream".data ∧
    DecodeString (fileFromBytes (fun _ => "application/octet-stream")
      "/etc/sysconfig/network-scripts/ifcfg-eth0" "root" 420 [0, 255, 137, 80]).Contents.Source =
      some [0, 255, 137, 80] :=
  ⟨by decide, fileFromBytes_roundtrip (fun _ => "application/octet-stream")
    "/etc/sysconfig/network-scripts/ifcfg-eth0" "root" 420 [0, 255, 137, 80] (by decide)⟩

/-- C4: in a well-formed role map, for every role key the stored configuration
reads the same after the NIC handler or the bond handler has run as before
(same files, same order, same length); only the handler's own `ignData` gains
entries: one file for a NIC request, three for a bond request that completes. -/
theorem store_unchanged (env : Env) (ignConfigs : List (String × Config)) (r : Request)
    (heap : Heap) (role : String) (h : StoreOK heap ignConfigs) :
    (index ignConfigs role).read (nicWrapper env ignConfigs r heap).heap =
      (index ignConfigs role).read heap ∧
    (index ignConfigs role).read (bondWrapper env ignConfigs r heap).heap =
      (index ignConfigs role).read heap ∧
    (∀ cfg, (nicWrapper env ignConfigs r heap).ignData = some cfg →
      ∃ f, (cfg.read (nicWrapper env ignConfigs r heap).heap).Files =
        ((index ignConfigs (r.vars "type")).read heap).Files ++ [f]) ∧
    (∀ st body cfg, (bondWrapper env ignConfigs r heap).out = .written st body →
      (bondWrapper env ignConfigs r heap).ignData = some cfg →
      ∃ f1 f2 f3, (cfg.read (bondWrapper env ignConfigs r heap).heap).Files =
        ((index ignConfigs (r.vars "type")).read heap).Files ++ [f1, f2, f3]) := by
  obtain ⟨hwf, hcl⟩ := store_clear heap ignConfigs h (r.vars "type") role
  have hwt := (store_clear heap ignConfigs h (r.vars "type") (r.vars "type")).1
  refine ⟨?_, ?_, ?_, ?_⟩
  · simp only [Config.read, nicWrapper_frame env ignConfigs r heap _ hwf hcl]
  · simp only [Config.read, bondWrapper_frame env ignConfigs r heap _ hwf hcl]
  · intro cfg hc
    obtain ⟨tmpl, _, hv, _⟩ := nicWrapper_local env ignConfigs r heap cfg hwt hc
    exact ⟨nicFileOf env r tmpl, hv⟩
  · intro st body cfg hout hc
    rcases bondWrapper_cases env ignConfigs r heap with ⟨err, he⟩ | hw
    · rw [he] at hout
      cases hout
    · obtain ⟨_, tb, ts, cfg', _, _, _, _, _, hc', _, hv⟩ := hw
      rw [hc] at hc'
      cases hc'
      exact ⟨_, _, _, hv hwt⟩

/-- C4 at the example role map: the master configuration is unchanged by a NIC
request for the master role. -/
theorem store_unchanged_witness :
    StoreOK exampleHeap exampleStore ∧
    (index exampleStore "master").read
        (nicWrapper exampleEnv exampleStore nicRequest exampleHeap).heap =
      (index exampleStore "master").read exampleHeap :=
  ⟨by decide,
    (store_unchanged exampleEnv exampleStore nicRequest exampleHeap "master" (by decide)).1⟩

/-- When no other handler runs in between, a bond request that completes against
a role whose stored file sequence is `F` serializes a configuration whose file
sequence is `F` followed by exactly three files, with the paths `ifcfg-{bond}`,
`ifcfg-{nic1}`, `ifcfg-{nic2}` under `/etc/sysconfig/network-scripts/` in this
order. -/
theorem bondWrapper_alone_files (env : Env) (ignConfigs : List (String × Config)) (r : Request)
    (heap : Heap) (F : List File) (st : Nat) (body : List Byte)
    (hwf : (index ignConfigs (r.vars "type")).Storage.Files.WF heap)
    (hF : (index ignConfigs (r.vars "type")).Storage.Files.view heap = F)
    (hdone : (bondWrapper env ignConfigs r heap).out = .written st body) :
    ∃ cfg f1 f2 f3,
      (bondWrapper env ignConfigs r heap).ignData = some cfg ∧
      env.Marshal (cfg.read (bondWrapper env ignConfigs r heap).heap) = .ok body ∧
      (cfg.read (bondWrapper env ignConfigs r heap).heap).Files = F ++ [f1, f2, f3] ∧
      f1.Node.Path = "/etc/sysconfig/network-scripts/ifcfg-" ++ r.vars "bond" ∧
      f2.Node.Path = "/etc/sysconfig/network-scripts/ifcfg-" ++ r.vars "nic1" ∧
      f3.Node.Path = "/etc/sysconfig/network-scripts/ifcfg-" ++ r.vars "nic2" ∧
      (cfg.read (bondWrapper env ignConfigs r heap).heap).Files.length = F.length + 3 ∧
      (cfg.read (bondWrapper env ignConfigs r heap).heap).Files.take F.length = F := by
  rcases bondWrapper_cases env ignConfigs r heap with ⟨err, he⟩ | hw
  · rw [he] at hdone
    cases hdone
  · obtain ⟨body', tb, ts, cfg, ho, _, _, _, _, hc, hm, hv⟩ := hw
    rw [ho] at hdone
    cases hdone
    have hv' := hv hwf
    rw [hF] at hv'
    refine ⟨cfg, _, _, _, hc, hm, hv', rfl, rfl, rfl, ?_, ?_⟩
    · show (cfg.Storage.Files.view _).length = _
      rw [hv']
      simp [bondFilesOf]
    · show (cfg.Storage.Files.view _).take F.length = _
      rw [hv']
      simp

/-- C5 fails on the code when requests interleave (the shared backing array of
C7): a bond request (`bond0`, `eth0`, `eth1`) and a NIC request (`ens3`) for the
master role, whose stored slice has length 1 and capacity 4. The bond handler
appends `ifcfg-bond0` into cell 1 of the stored array, the NIC handler then
appends `ifcfg-ens3` into the same cell, and the bond handler goes on: its
response lists `ifcfg-ens3`, `ifcfg-eth0`, `ifcfg-eth1` after the base file, not
`ifcfg-bond0`, `ifcfg-eth0`, `ifcfg-eth1` as it does when it runs alone. -/
theorem bond_response_mixes_requests :
    (run exampleEnv exampleStore [0, 1, 0, 0, 0]
        { heap := exampleHeap, threads := [.bond bondRequest, .nic ens3Request] }).threads[0]? =
      some (.finished (.written 200
        (bytesOf ("/etc/hostname\n/etc/sysconfig/network-scripts/ifcfg-ens3\n" ++
          "/etc/sysconfig/network-scripts/ifcfg-eth0\n" ++
          "/etc/sysconfig/network-scripts/ifcfg-eth1\n")))) ∧
    (run exampleEnv exampleStore [0, 0, 0, 0]
        { heap := exampleHeap, threads := [.bond bondRequest] }).threads[0]? =
      some (.finished (.written 200
        (bytesOf ("/etc/hostname\n/etc/sysconfig/network-scripts/ifcfg-bond0\n" ++
          "/etc/sysconfig/network-scripts/ifcfg-eth0\n" ++
          "/etc/sysconfig/network-scripts/ifcfg-eth1\n")))) ∧
    (index exampleStore "master").Storage.Files.view exampleHeap = [baseFile] := by
  decide

/-- When no other handler runs in between, a NIC request that completes, with
caller IP `callerIP r`, against a role whose stored file sequence is `F`, is
answered with status 200 and the
serialization of a configuration whose file sequence is `F` followed by exactly
one file: its path is `/etc/sysconfig/network-scripts/ifcfg-{nic}`, its user is
`root`, its mode is 0644 (420), and its content is the data-URL embedding of what
executing the NIC template with `{Name = nic, IP = caller IP, Mask = mask,
Gateway = gateway, DNS = dns}` wrote. -/
theorem nicWrapper_alone_file (env : Env) (ignConfigs : List (String × Config)) (r : Request)
    (heap : Heap) (F : List File) (st : Nat) (body : List Byte)
    (hwf : (index ignConfigs (r.vars "type")).Storage.Files.WF heap)
    (hF : (index ignConfigs (r.vars "type")).Storage.Files.view heap = F)
    (hdone : (nicWrapper env ignConfigs r heap).out = .written st body) :
    st = 200 ∧ ∃ tmpl cfg f,
      env.ParseFiles (pathJoin templatesDir "nic.tmpl") = .ok tmpl ∧
      (nicWrapper env ignConfigs r heap).ignData = some cfg ∧
      env.Marshal (cfg.read (nicWrapper env ignConfigs r heap).heap) = .ok body ∧
      (cfg.read (nicWrapper env ignConfigs r heap).heap).Files = F ++ [f] ∧
      f.Node.Path = "/etc/sysconfig/network-scripts/ifcfg-" ++ r.vars "nic" ∧
      f.Node.User = some { Name := "root" } ∧
      f.Mode = some 420 ∧
      f.Contents.Source = EncodeBytes env.DetectContentType
        (Execute tmpl [] (.nic { Name := r.vars "nic", IP := callerIP r, Mask := r.vars "mask",
                                 Gateway := r.vars "gateway", DNS := r.vars "dns" })).1 := by
  obtain ⟨hst, tmpl, cfg, hp, hc, hm, hv⟩ :=
    nicWrapper_written env ignConfigs r heap st body hwf hdone
  rw [hF] at hv
  exact ⟨hst, tmpl, cfg, nicFileOf env r tmpl, hp, hc, hm, hv, rfl, rfl, rfl, rfl⟩

/-- C6 fails on the code when requests interleave (the shared backing array of
C7): two NIC requests for the master role, `eth0` (mask 24) and `eth1` (mask
16), with the stored slice of length 1 and capacity 4. The first handler appends
its file into cell 1 of the stored array, the second handler appends its own
file into the same cell, and then the first handler serializes: the response to
the `eth0` request lists `ifcfg-eth1`, and the file it carries is the NIC
template rendered for `eth1`. Run alone, the same request is answered with
`ifcfg-eth0`. -/
theorem nic_response_carries_other_request :
    (run exampleEnv exampleStore [0, 1, 0]
        { heap := exampleHeap, threads := [.nic nicRequest, .nic nicRequest2] }).threads[0]? =
      some (.finished (.written 200
        (bytesOf "/etc/hostname\n/etc/sysconfig/network-scripts/ifcfg-eth1\n"))) ∧
    (run exampleEnv exampleStore [0, 1]
        { heap := exampleHeap, threads := [.nic nicRequest, .nic nicRequest2] }).threads[0]? =
      some (.marshal { Storage := { Files := ⟨0, 2, 4⟩ } }) ∧
    ((Slice.view (run exampleEnv exampleStore [0, 1]
        { heap := exampleHeap, threads := [.nic nicRequest, .nic nicRequest2] }).heap
        ⟨0, 2, 4⟩).map (fun f => (f.Node.Path, DecodeString f.Contents.Source))) =
      [("/etc/hostname", some (bytesOf "master-0")),
       ("/etc/sysconfig/network-scripts/ifcfg-eth1",
         some (bytesOf ("DEVICE=eth1\nIPADDR=10.0.0.5\nPREFIX=16\nGATEWAY=10.1.0.1\n" ++
           "DNS1=1.1.1.1")))] ∧
    (run exampleEnv exampleStore [0, 0]
        { heap := exampleHeap, threads := [.nic nicRequest] }).threads[0]? =
      some (.finished (.written 200
        (bytesOf "/etc/hostname\n/etc/sysconfig/network-scripts/ifcfg-eth0\n"))) := by
  decide

/-- C7 fails on the code: the handler's `ignData` shares the backing array of the
stored file slice. With the master slice of length 1 and capacity 4, the first
NIC request (`eth0`) returns a slice over the stored array showing
`[/etc/hostname, ifcfg-eth0]`; after a second NIC request (`eth1`) for the same
role that same slice shows `[/etc/hostname, ifcfg-eth1]`. -/
theorem second_append_overwrites_first :
    (nicWrapper exampleEnv exampleStore nicRequest exampleHeap).ignData.map
        (fun c => c.Storage.Files.ptr) =
      some (index exampleStore "master").Storage.Files.ptr ∧
    (nicWrapper exampleEnv exampleStore nicRequest exampleHeap).ignData.map
        (fun c => (c.Storage.Files.view
          (nicWrapper exampleEnv exampleStore nicRequest exampleHeap).heap).map
            (fun f => f.Node.Path)) =
      some ["/etc/hostname", "/etc/sysconfig/network-scripts/ifcfg-eth0"] ∧
    (nicWrapper exampleEnv exampleStore nicRequest exampleHeap).ignData.map
        (fun c => (c.Storage.Files.view
          (nicWrapper exampleEnv exampleStore nicRequest2
            (nicWrapper exampleEnv exampleStore nicRequest exampleHeap).heap).heap).map
              (fun f => f.Node.Path)) =
      some ["/etc/hostname", "/etc/sysconfig/network-scripts/ifcfg-eth1"] := by
  decide

/-- C8: the IP field of the `Nic` and `Bond` values depends on the request only
through `RemoteAddr`: two requests with the same `RemoteAddr` get the same IP,
whatever their path variables and headers, and for a `RemoteAddr` of the form
`host:port` with a colon-free host the IP is `host`. -/
theorem ip_from_remote_addr (r1 r2 : Request) (h : r1.RemoteAddr = r2.RemoteAddr) :
    (nicValue r1).map (fun n => n.IP) = (nicValue r2).map (fun n => n.IP) ∧
    (bondValues r1).map (fun v => v.1.IP) = (bondValues r2).map (fun v => v.1.IP) ∧
    (nicValue r1).map (fun n => n.IP) = some (callerIP r1) ∧
    (bondValues r1).map (fun v => v.1.IP) = some (callerIP r1) ∧
    (∀ host port : String, ':' ∉ host.data → r1.RemoteAddr = host ++ ":" ++ port →
      (nicValue r1).map (fun n => n.IP) = some host ∧
      (bondValues r1).map (fun v => v.1.IP) = some host) := by
  have e : callerIP r1 = callerIP r2 := by
    unfold callerIP
    rw [h]
  refine ⟨?_, ?_, ?_, ?_, ?_⟩
  · simp only [nicValue_eq, Option.map_some', e]
  · simp only [bondValues_eq, Option.map_some', e]
  · simp only [nicValue_eq, Option.map_some']
  · simp only [bondValues_eq, Option.map_some']
  · intro host port hc hr
    have := callerIP_host r1 host port hc hr
    simp only [nicValue_eq, bondValues_eq, Option.map_some', this, and_self]

/-- C8 at two requests from `10.0.0.5:51234` that differ in their path variables
and in a forwarded-for header. -/
theorem ip_from_remote_addr_witness :
    nicRequest.RemoteAddr = nicRequest2.RemoteAddr ∧
    nicRequest.Vars ≠ nicRequest2.Vars ∧ nicRequest.Header ≠ nicRequest2.Header ∧
    (nicValue nicRequest).map (fun n => n.IP) = (nicValue nicRequest2).map (fun n => n.IP) ∧
    (nicValue nicRequest).map (fun n => n.IP) = some "10.0.0.5" :=
  ⟨by decide, by decide, by decide,
    (ip_from_remote_addr nicRequest nicRequest2 (by decide)).1,
    ((ip_from_remote_addr nicRequest nicRequest2 (by decide)).2.2.2.2
      "10.0.0.5" "51234" (by decide) (by decide)).1⟩

/-- C9: for every `RemoteAddr`, splitting on `:` gives a non-empty list, so
`addr[0]` is in range and neither handler panics; the IP used is the longest
prefix of `RemoteAddr` without a colon, which is `[` for `[::1]:8080` and the
empty string for an empty `RemoteAddr`. -/
theorem addr_index_in_range (r : Request) :
    Split r.RemoteAddr ':' ≠ [] ∧
    (Split r.RemoteAddr ':')[0]? = some (callerIP r) ∧
    (nicValue r).map (fun n => n.IP) = some (callerIP r) ∧
    (bondValues r).map (fun v => v.1.IP) = some (callerIP r) ∧
    (∀ (env : Env) (ignConfigs : List (String × Config)) (heap : Heap),
      (nicWrapper env ignConfigs r heap).out ≠ .panicked ∧
      (bondWrapper env ignConfigs r heap).out ≠ .panicked) ∧
    (callerIP r).data <+: r.RemoteAddr.data ∧ ':' ∉ (callerIP r).data ∧
    (∀ q : List Char, q <+: r.RemoteAddr.data → ':' ∉ q → q <+: (callerIP r).data) ∧
    callerIP { RemoteAddr := "[::1]:8080", Vars := [] } = "[" ∧
    callerIP { RemoteAddr := "", Vars := [] } = "" := by
  have hs := Split_head r.RemoteAddr ':'
  refine ⟨?_, hs, ?_, ?_, ?_, ?_, ?_, ?_, by decide, by decide⟩
  · intro hnil
    rw [hnil] at hs
    simp at hs
  · simp only [nicValue_eq, Option.map_some']
  · simp only [bondValues_eq, Option.map_some']
  · intro env ignConfigs heap
    constructor
    · rcases nicWrapper_cases env ignConfigs r heap with ⟨err, he⟩ | ⟨b, _, _, hb, _⟩
      · rw [he]; simp
      · rw [hb]; simp
    · rcases bondWrapper_cases env ignConfigs r heap with ⟨err, he⟩ | ⟨b, _, _, _, hb, _⟩
      · rw [he]; simp
      · rw [hb]; simp
  · exact List.takeWhile_prefix _
  · exact takeWhile_no_colon _
  · intro q hq hc
    exact takeWhile_longest _ q hq hc

/-- C10, as stated, fails when requests interleave: the NIC template parses and
its execution fails for both of two NIC requests (`eth0`, `eth1`) for the master
role; the second handler's append lands in the cell the first one wrote, and the
response to the `eth0` request lists `ifcfg-eth1`, not `ifcfg-eth0`, after the
base file. -/
theorem nic_exec_error_response_mixes_requests :
    brokenEnv.ParseFiles (pathJoin templatesDir "nic.tmpl") = .ok brokenNicTemplate ∧
    (Execute brokenNicTemplate [] (.nic { Name := "eth0", IP := "10.0.0.5", Mask := "24",
                                          Gateway := "10.0.0.1", DNS := "8.8.8.8" })).2 =
      some ("template: nic.tmpl:2:9: executing \"nic.tmpl\" at <.MAC>: " ++
        "can't evaluate field MAC in type main.Nic") ∧
    (run brokenEnv exampleStore [0, 1, 0]
        { heap := exampleHeap, threads := [.nic nicRequest, .nic nicRequest2] }).threads[0]? =
      some (.finished (.written 200
        (bytesOf "/etc/hostname\n/etc/sysconfig/network-scripts/ifcfg-eth1\n"))) :=
  ⟨rfl, by decide, by decide⟩

/-- C10, amended: when the NIC template parses but its execution fails,
`nicWrapper` drops the error. Its first step does not exit: it appends to its
`ignData` one `ifcfg-{nic}` file embedding the bytes written to the buffer before
the failure (so `ignData` then shows the base files followed by that file) and
goes on to the serialization, which alone decides the outcome: status 200 with
the serialized bytes, or exit with the serializer's error. When no other handler
runs in between and the serializer succeeds, the response is the serialization
of the base files followed by that file. The same failure inside `addTemplate`
exits the process with the execution error, and so does a failing bond template
in `bondWrapper`. -/
theorem nic_exec_error_discarded (env : Env) (ignConfigs : List (String × Config))
    (r : Request) (heap : Heap) (tmpl : Template) (err : String) (F : List File)
    (hp : env.ParseFiles (pathJoin templatesDir "nic.tmpl") = .ok tmpl)
    (he : (Execute tmpl [] (.nic { Name := r.vars "nic", IP := callerIP r,
                                   Mask := r.vars "mask", Gateway := r.vars "gateway",
                                   DNS := r.vars "dns" })).2 = some err)
    (hwf : (index ignConfigs (r.vars "type")).Storage.Files.WF heap)
    (hF : (index ignConfigs (r.vars "type")).Storage.Files.view heap = F) :
    (∃ cfg, (step env ignConfigs heap (.nic r)).2 = .marshal cfg ∧
      cfg.Storage.Files.view (step env ignConfigs heap (.nic r)).1 =
        F ++ [fileFromBytes env.DetectContentType
          ("/etc/sysconfig/network-scripts/ifcfg-" ++ r.vars "nic") "root" 420
          (Execute tmpl [] (.nic { Name := r.vars "nic", IP := callerIP r,
                                   Mask := r.vars "mask", Gateway := r.vars "gateway",
                                   DNS := r.vars "dns" })).1]) ∧
    (∀ (heap1 : Heap) (cfg : Config),
      (step env ignConfigs heap1 (.marshal cfg)).2 =
        .finished (match env.Marshal (cfg.read heap1) with
          | .error e => .exited 1 e
          | .ok data => .written 200 data)) ∧
    (∀ body, env.Marshal
        { Files := F ++ [fileFromBytes env.DetectContentType
            ("/etc/sysconfig/network-scripts/ifcfg-" ++ r.vars "nic") "root" 420
            (Execute tmpl [] (.nic { Name := r.vars "nic", IP := callerIP r,
                                     Mask := r.vars "mask", Gateway := r.vars "gateway",
                                     DNS := r.vars "dns" })).1]
          StorageOthers := (index ignConfigs (r.vars "type")).Storage.Others
          Others := (index ignConfigs (r.vars "type")).Others } = .ok body →
      (nicWrapper env ignConfigs r heap).out = .written 200 body ∧
      (run env ignConfigs [0, 0] { heap := heap, threads := [.nic r] }).threads =
        [.finished (.written 200 body)]) ∧
    (∀ (heap1 : Heap) (cfg : Config) (path : String),
      addTemplate env heap1 cfg (pathJoin templatesDir "nic.tmpl") path
        (.nic { Name := r.vars "nic", IP := callerIP r, Mask := r.vars "mask",
                Gateway := r.vars "gateway", DNS := r.vars "dns" }) =
        .error (.exited 1 err)) ∧
    (∀ tb eb, env.ParseFiles (pathJoin templatesDir "bond.tmpl") = .ok tb →
      (Execute tb [] (.bond { Name := r.vars "bond", IP := callerIP r, Mask := r.vars "mask",
                              Gateway := r.vars "gateway", DNS := r.vars "dns" })).2 = some eb →
      (bondWrapper env ignConfigs r heap).out = .exited 1 eb) := by
  have hv := append_view env.growslice heap _ (nicFileOf env r tmpl) hwf
  rw [hF] at hv
  refine ⟨?_, ?_, ?_, ?_, ?_⟩
  · rw [step_nic_parsed env ignConfigs r heap tmpl hp]
    exact ⟨_, rfl, hv⟩
  · intro heap1 cfg
    rfl
  · intro body hm
    have hout : (nicWrapper env ignConfigs r heap).out = .written 200 body := by
      rw [nicWrapper_parsed env ignConfigs r heap tmpl hp]
      simp only [Config.read, hv]
      simp only [nicFileOf, hm]
    refine ⟨hout, ?_⟩
    rw [nicWrapper_alone, hout]
  · intro heap1 cfg path
    exact addTemplate_exec_error env heap1 cfg _ path _ tmpl err hp he
  · intro tb eb hpb heb
    simp only [bondWrapper, bondValues_eq]
    rw [addTemplate_exec_error env _ _ _ _ _ tb eb hpb heb]

/-- C10 at a NIC template that refers to the undefined field `MAC` after writing
`DEVICE=eth0` and `HWADDR=`: the NIC handler, run alone, answers 200 with a file
embedding that partial text, while the bond handler exits with the execution
error of its template. -/
theorem nic_exec_error_discarded_witness :
    brokenEnv.ParseFiles (pathJoin templatesDir "nic.tmpl") = .ok brokenNicTemplate ∧
    (Execute brokenNicTemplate []
      (.nic { Name := nicRequest.vars "nic", IP := callerIP nicRequest,
              Mask := nicRequest.vars "mask", Gateway := nicRequest.vars "gateway",
              DNS := nicRequest.vars "dns" })).2 =
      some ("template: nic.tmpl:2:9: executing \"nic.tmpl\" at <.MAC>: " ++
        "can't evaluate field MAC in type main.Nic") ∧
    (nicWrapper brokenEnv exampleStore nicRequest exampleHeap).out =
      .written 200 (bytesOf "/etc/hostname\n/etc/sysconfig/network-scripts/ifcfg-eth0\n") ∧
    (nicWrapper brokenEnv exampleStore nicRequest exampleHeap).ignData.map (fun c =>
      (c.read (nicWrapper brokenEnv exampleStore nicRequest exampleHeap).heap).Files.map
        (fun f => (f.Node.Path, DecodeString f.Contents.Source))) =
      some [("/etc/hostname", some (bytesOf "master-0")),
            ("/etc/sysconfig/network-scripts/ifcfg-eth0",
              some (bytesOf "DEVICE=eth0\nHWADDR="))] ∧
    (bondWrapper brokenEnv exampleStore bondRequest exampleHeap).out =
      .exited 1 ("template: bond.tmpl:2:9: executing \"bond.tmpl\" at <.MAC>: " ++
        "can't evaluate field MAC in type main.Bond") :=
  ⟨rfl, by decide,
    ((nic_exec_error_discarded brokenEnv exampleStore nicRequest exampleHeap
      brokenNicTemplate
      ("template: nic.tmpl:2:9: executing \"nic.tmpl\" at <.MAC>: " ++
        "can't evaluate field MAC in type main.Nic") [baseFile]
      rfl (by decide) (by decide) (by decide)).2.2.1
      (bytesOf "/etc/hostname\n/etc/sysconfig/network-scripts/ifcfg-eth0\n") rfl).1,
    by decide, by decide⟩

end IgnStaticnet
